import Mathlib

/- Verification of the foreign-table storage manager
   (DataMgr/ForeignStorage/ForeignStorageMgr.cpp) against its design
   specification.  Chunk keys are modelled as lists of machine integers,
   buffers are identified by numeric ids, and the persistent cache, the
   transient staging map (temp_chunk_buffer_map_) and the data-wrapper map
   are explicit state threaded through the modelled operations.  Wrapper
   calls (populateChunkMetadata / populateChunkBuffers) and filesystem
   probes are oracles passed in as parameters; their observable effects
   (calls made, arguments passed, errors raised) are recorded in outcome
   records so that the theorems can speak about them. -/

/-- A chunk key: the ordered tuple (db_id, table_id, column_id, fragment_id
[, subchunk]) of the source, i.e. a std vector of int. -/
abbrev ChunkKey := List Int

/-- CHUNK_KEY_DB_IDX from the source headers. -/
def CHUNK_KEY_DB_IDX : Nat := 0

/-- CHUNK_KEY_TABLE_IDX from the source headers. -/
def CHUNK_KEY_TABLE_IDX : Nat := 1

/-- CHUNK_KEY_COLUMN_IDX from the source headers. -/
def CHUNK_KEY_COLUMN_IDX : Nat := 2

/-- CHUNK_KEY_FRAGMENT_IDX from the source headers. -/
def CHUNK_KEY_FRAGMENT_IDX : Nat := 3

/-- Predicate for a table key (two components), source helper isTableKey. -/
def isTableKey (k : ChunkKey) : Bool := k.length == 2

/-- Source helper isVarLenKey: a chunk key with five components. -/
def isVarLenKey (k : ChunkKey) : Bool := k.length == 5

/-- Source helper isVarLenDataKey: a five-component key whose subchunk id
is 1 (the data sibling, as opposed to 2, the index sibling). -/
def isVarLenDataKey (k : ChunkKey) : Bool :=
  k.length == 5 && k.getD 4 0 == 1

/-- Test whether chunk key k belongs to the table identified by the
two-component table key, i.e. whether its first two components equal the
table key (key-prefix containment used by the for-table cache operations). -/
def underTableKey (table_key k : ChunkKey) : Bool := k.take 2 == table_key

/-- The SQLTypeInfo bits of a column that the fanout computation reads:
get_physical_cols() (number of additional physical columns of a logical
column) and is_varlen_indeed(). -/
structure ColumnType where
  physicalCols : Nat
  varlenIndeed : Bool
deriving DecidableEq

/-- A column descriptor as read through ForeignTableSchema. -/
structure ColumnDescriptor where
  columnId : Int
  columnType : ColumnType
deriving DecidableEq

/-- The part of ForeignTableSchema used by getChunkBuffersToPopulate:
getLogicalColumn maps any physical column id to the descriptor of the
logical column owning it, getColumnDescriptor resolves a column id. -/
structure ForeignTableSchema where
  getLogicalColumn : Int → ColumnDescriptor
  getColumnDescriptor : Int → ColumnDescriptor

/-- The key-emission loop of ForeignStorageMgr::getChunkBuffersToPopulate
(ForeignStorageMgr.cpp lines 126-140): starting at column id cid, for fuel
many column ids, look up the column descriptor and emit the two sibling
keys (db,t,c,f,1) and (db,t,c,f,2) when the column is varlen-indeed, and
the single key (db,t,c,f) otherwise. -/
def fanoutColumnLoop (schema : ForeignTableSchema) (db tbl frag : Int) :
    Int → Nat → List ChunkKey
  | _, 0 => []
  | cid, n + 1 =>
    let column := schema.getColumnDescriptor cid
    (if column.columnType.varlenIndeed then
      [[db, tbl, column.columnId, frag, 1], [db, tbl, column.columnId, frag, 2]]
    else
      [[db, tbl, column.columnId, frag]]) ++
      fanoutColumnLoop schema db tbl frag (cid + 1) n

/-- The chunk_keys vector computed by
ForeignStorageMgr::getChunkBuffersToPopulate (ForeignStorageMgr.cpp lines
112-140): read (db, table, column, fragment) from the first four components
of the destination chunk key, resolve the logical column of the destination
column, and run the emission loop from the logical column id over
get_physical_cols() + 1 column ids (the C++ loop bound is inclusive). -/
def getChunkBuffersToPopulateKeys (schema : ForeignTableSchema)
    (destination_chunk_key : ChunkKey) : List ChunkKey :=
  let db := destination_chunk_key.getD CHUNK_KEY_DB_IDX 0
  let tbl := destination_chunk_key.getD CHUNK_KEY_TABLE_IDX 0
  let col := destination_chunk_key.getD CHUNK_KEY_COLUMN_IDX 0
  let frag := destination_chunk_key.getD CHUNK_KEY_FRAGMENT_IDX 0
  let logical_column := schema.getLogicalColumn col
  fanoutColumnLoop schema db tbl frag logical_column.columnId
    (logical_column.columnType.physicalCols + 1)

/-- Association lookup in the temp_chunk_buffer_map_ (staging map).  The
map stores exclusively owned ForeignStorageBuffer objects, modelled here
by numeric buffer ids. -/
def lookupStaging : List (ChunkKey × Nat) → ChunkKey → Option Nat
  | [], _ => none
  | (k, b) :: rest, key => if k = key then some b else lookupStaging rest key

/-- Observable outcome of one ForeignStorageMgr::fetchBuffer call: the
identity of the source buffer finally read (the variable buffer in the
source), whether copyTo into the destination ran and with how many bytes,
the fanout vector chunk_keys, the argument of the cacheTableChunks
write-back when one was made, and the staging map afterwards. -/
structure FetchOutcome where
  src : Nat
  copied : Bool
  copiedBytes : Option Nat
  chunk_keys : List ChunkKey
  cacheTableChunksArg : Option (List ChunkKey)
  stagingAfter : List (ChunkKey × Nat)
deriving DecidableEq

/-- Model of ForeignStorageMgr::fetchBuffer (ForeignStorageMgr.cpp lines
53-110) together with the buffer-map half of getChunkBuffersToPopulate
(lines 142-159).  cacheLookup is the result of
getCachedChunkIfExists(chunk_key); cacheAlloc gives the buffer the cache
hands out per key in getChunkBuffersForCaching; stagingAlloc gives the id
of the fresh ForeignStorageBuffer allocated per sibling key; dst is the
destination buffer.  Wrapper creation/recovery on a miss mutates only the
wrapper, not the state modelled here, and populateChunkBuffers fills the
required buffers in place. -/
def fetchBuffer (is_cache_enabled : Bool) (cacheLookup : Option Nat)
    (staging : List (ChunkKey × Nat)) (schema : ForeignTableSchema)
    (cacheAlloc : ChunkKey → Nat) (stagingAlloc : ChunkKey → Nat)
    (chunk_key : ChunkKey) (dst : Nat) (num_bytes : Nat) : FetchOutcome :=
  let fromCache : Option Nat := if is_cache_enabled then cacheLookup else none
  let fromMap : Option Nat :=
    if is_cache_enabled then none else lookupStaging staging chunk_key
  let is_buffer_from_map : Bool := fromMap.isSome
  match fromCache, fromMap with
  | some b, _ =>
    { src := b
      copied := true
      copiedBytes := some num_bytes
      chunk_keys := []
      cacheTableChunksArg := none
      stagingAfter := staging }
  | none, some b =>
    { src := b
      copied := true
      copiedBytes := some num_bytes
      chunk_keys := []
      cacheTableChunksArg := none
      stagingAfter := staging.filter (fun e => decide (e.1 ≠ chunk_key)) }
  | none, none =>
    let chunk_keys := getChunkBuffersToPopulateKeys schema chunk_key
    let src := if is_cache_enabled then cacheAlloc chunk_key else dst
    let stagingAfter :=
      if is_cache_enabled then staging
      else if 1 < chunk_keys.length then
        staging ++ (chunk_keys.filter (fun k => decide (k ≠ chunk_key))).map
          (fun k => (k, stagingAlloc k))
      else staging
    { src := src
      copied := is_cache_enabled || is_buffer_from_map
      copiedBytes :=
        if is_cache_enabled || is_buffer_from_map then some num_bytes else none
      chunk_keys := chunk_keys
      cacheTableChunksArg :=
        if is_cache_enabled then some chunk_keys else none
      stagingAfter := stagingAfter }

/-- MAX_REFRESH_TIME_IN_SECONDS from ForeignStorageMgr.cpp line 27. -/
def MAX_REFRESH_TIME_IN_SECONDS : Int := 60 * 60

/-- State of the foreign storage cache as seen by the storage manager: the
set of chunk keys with cached metadata and the set of durably cached chunk
buffers.  Buffer contents are not modelled; a chunk is "re-populated" when
its key appears in a populateChunkBuffers batch. -/
structure CacheState where
  metadataKeys : List ChunkKey
  chunkKeys : List ChunkKey
deriving DecidableEq

/-- ForeignStorageCache::clearForTablePrefix: drop every metadata entry and
every cached chunk belonging to the table. -/
def clearForTableOp (cache : CacheState) (table_key : ChunkKey) : CacheState :=
  { metadataKeys := cache.metadataKeys.filter (fun k => !underTableKey table_key k)
    chunkKeys := cache.chunkKeys.filter (fun k => !underTableKey table_key k) }

/-- Errors leaving ForeignStorageMgr::refreshTableInCache: either an
exception propagated unchanged (raised before the try block) or one
wrapped as a PostEvictionRefreshException by the catch clause. -/
inductive RefreshError where
  | original (msg : String)
  | postEvictionRefresh (msg : String)
deriving DecidableEq

/-- Mutable state of the chunk re-population loop of
refreshTableInCache (ForeignStorageMgr.cpp lines 379-426): the current
fragment id, the per-fragment batch chunk_keys_in_fragment, the
accumulator chunk_keys_to_be_cached, the accumulated total_time with the
index of the next wall-clock reading, the populateChunkBuffers calls made
so far, whether the budget warning was logged, a pending wrapper
exception, and whether the CHECK(isVarLenDataKey) assertion failed. -/
structure RefreshLoopState where
  fragment_id : Int
  chunk_keys_in_fragment : List ChunkKey
  chunk_keys_to_be_cached : List ChunkKey
  total_time : Int
  tick : Nat
  populateCalls : List (List ChunkKey)
  warned : Bool
  failed : Option String
  checkFailed : Bool
deriving DecidableEq

/-- Body of ForeignStorageMgr.cpp lines 413-424: append the chunk key
(preceded by its paired index key when it is a variable-length data key)
to the current batch and to the to-be-cached accumulator; a five-component
key that is not a data key trips CHECK(isVarLenDataKey(chunk_key)). -/
def addKeyStep (chunk_key : ChunkKey) (st : RefreshLoopState) : RefreshLoopState :=
  if isVarLenKey chunk_key then
    if isVarLenDataKey chunk_key then
      let index_chunk_key : ChunkKey :=
        [chunk_key.getD CHUNK_KEY_DB_IDX 0, chunk_key.getD CHUNK_KEY_TABLE_IDX 0,
         chunk_key.getD CHUNK_KEY_COLUMN_IDX 0, chunk_key.getD CHUNK_KEY_FRAGMENT_IDX 0, 2]
      { st with
        chunk_keys_in_fragment := st.chunk_keys_in_fragment ++ [index_chunk_key, chunk_key]
        chunk_keys_to_be_cached := st.chunk_keys_to_be_cached ++ [index_chunk_key, chunk_key] }
    else
      { st with checkFailed := true }
  else
    { st with
      chunk_keys_in_fragment := st.chunk_keys_in_fragment ++ [chunk_key]
      chunk_keys_to_be_cached := st.chunk_keys_to_be_cached ++ [chunk_key] }

/-- The for-loop over old_chunk_keys of refreshTableInCache
(ForeignStorageMgr.cpp lines 382-426).  metadataKeys is the metadata store
after the re-caching step (the loop consults isMetadataCached against it);
populate returns the exception message of a failing
populateChunkBuffers call, none on success; elapsed gives the wall-clock
seconds measured at the n-th fragment boundary (the duration_cast of
now() minus fragment_refresh_start_time).  In append mode keys of
fragments below last_frag_id are skipped.  At a fragment boundary the
pending batch, when non-empty, is flushed with one populateChunkBuffers
call, then total_time is advanced and compared against
MAX_REFRESH_TIME_IN_SECONDS; on reaching the budget the loop logs a
warning and breaks.  A wrapper exception or a CHECK failure stops the
loop immediately. -/
def refreshLoop (append_mode : Bool) (last_frag_id : Int)
    (metadataKeys : List ChunkKey) (populate : List ChunkKey → Option String)
    (elapsed : Nat → Int) : List ChunkKey → RefreshLoopState → RefreshLoopState
  | [], st => st
  | chunk_key :: rest, st =>
    if append_mode && decide (chunk_key.getD CHUNK_KEY_FRAGMENT_IDX 0 < last_frag_id) then
      refreshLoop append_mode last_frag_id metadataKeys populate elapsed rest st
    else if chunk_key ∈ metadataKeys then
      if chunk_key.getD CHUNK_KEY_FRAGMENT_IDX 0 ≠ st.fragment_id then
        if st.chunk_keys_in_fragment = [] then
          let total := st.total_time + elapsed st.tick
          if MAX_REFRESH_TIME_IN_SECONDS ≤ total then
            { st with total_time := total, tick := st.tick + 1, warned := true }
          else
            let st2 := { st with total_time := total, tick := st.tick + 1,
                                 fragment_id := chunk_key.getD CHUNK_KEY_FRAGMENT_IDX 0 }
            let st3 := addKeyStep chunk_key st2
            if st3.checkFailed then st3
            else refreshLoop append_mode last_frag_id metadataKeys populate elapsed rest st3
        else
          match populate st.chunk_keys_in_fragment with
          | some e =>
            { st with populateCalls := st.populateCalls ++ [st.chunk_keys_in_fragment],
                      chunk_keys_in_fragment := [], failed := some e }
          | none =>
            let st1 := { st with
              populateCalls := st.populateCalls ++ [st.chunk_keys_in_fragment],
              chunk_keys_in_fragment := ([] : List ChunkKey) }
            let total := st1.total_time + elapsed st1.tick
            if MAX_REFRESH_TIME_IN_SECONDS ≤ total then
              { st1 with total_time := total, tick := st1.tick + 1, warned := true }
            else
              let st2 := { st1 with total_time := total, tick := st1.tick + 1,
                                    fragment_id := chunk_key.getD CHUNK_KEY_FRAGMENT_IDX 0 }
              let st3 := addKeyStep chunk_key st2
              if st3.checkFailed then st3
              else refreshLoop append_mode last_frag_id metadataKeys populate elapsed rest st3
      else
        let st3 := addKeyStep chunk_key st
        if st3.checkFailed then st3
        else refreshLoop append_mode last_frag_id metadataKeys populate elapsed rest st3
    else
      refreshLoop append_mode last_frag_id metadataKeys populate elapsed rest st

/-- Observable outcome of a ForeignStorageMgr::refreshTableInCache call:
the cache state afterwards, the escaping exception if any, the computed
last_frag_id, whether clearForTablePrefix ran, the metadata vector passed
to cacheMetadataVec (when that call was reached), the
populateChunkBuffers batches issued, the budget-warning flag with the
final accumulated total_time, the argument of the final cacheTableChunks
call (when reached), and whether a CHECK aborted the process. -/
structure RefreshOutcome where
  cache : CacheState
  err : Option RefreshError
  last_frag_id : Int
  clearedTable : Bool
  cachedMetadataArg : Option (List ChunkKey)
  populateCalls : List (List ChunkKey)
  warned : Bool
  total_time : Int
  cacheTableChunksArg : Option (List ChunkKey)
  checkFailed : Bool
deriving DecidableEq

/-- Tail of ForeignStorageMgr::refreshTableInCache after the
re-population loop (ForeignStorageMgr.cpp lines 427-437), applied to the
loop's final state: a CHECK failure aborts the process before any further
cache mutation; a pending wrapper exception escapes as
PostEvictionRefreshException; otherwise the last pending batch, when
non-empty, is flushed with one populateChunkBuffers call (whose exception
also escapes wrapped) and chunk_keys_to_be_cached is promoted to durable
via one cacheTableChunks call. -/
def refreshFinish (populate : List ChunkKey → Option String)
    (cache2 : CacheState) (last_frag_id : Int) (append_mode : Bool)
    (new_metadata_vec : List ChunkKey) (st : RefreshLoopState) : RefreshOutcome :=
  if st.checkFailed then
    { cache := cache2, err := none, last_frag_id := last_frag_id
      clearedTable := !append_mode
      cachedMetadataArg := some new_metadata_vec
      populateCalls := st.populateCalls, warned := st.warned
      total_time := st.total_time, cacheTableChunksArg := none
      checkFailed := true }
  else
    match st.failed with
    | some e =>
      { cache := cache2, err := some (.postEvictionRefresh e)
        last_frag_id := last_frag_id, clearedTable := !append_mode
        cachedMetadataArg := some new_metadata_vec
        populateCalls := st.populateCalls, warned := st.warned
        total_time := st.total_time, cacheTableChunksArg := none
        checkFailed := false }
    | none =>
      match (if st.chunk_keys_in_fragment = [] then none
             else populate st.chunk_keys_in_fragment) with
      | some e =>
        { cache := cache2, err := some (.postEvictionRefresh e)
          last_frag_id := last_frag_id, clearedTable := !append_mode
          cachedMetadataArg := some new_metadata_vec
          populateCalls :=
            if st.chunk_keys_in_fragment = [] then st.populateCalls
            else st.populateCalls ++ [st.chunk_keys_in_fragment]
          warned := st.warned
          total_time := st.total_time, cacheTableChunksArg := none
          checkFailed := false }
      | none =>
        { cache :=
            { cache2 with
              chunkKeys := cache2.chunkKeys ++ st.chunk_keys_to_be_cached }
          err := none, last_frag_id := last_frag_id
          clearedTable := !append_mode
          cachedMetadataArg := some new_metadata_vec
          populateCalls :=
            if st.chunk_keys_in_fragment = [] then st.populateCalls
            else st.populateCalls ++ [st.chunk_keys_in_fragment]
          warned := st.warned
          total_time := st.total_time
          cacheTableChunksArg := some st.chunk_keys_to_be_cached
          checkFailed := false }

/-- Model of ForeignStorageMgr::refreshTableInCache (ForeignStorageMgr.cpp
lines 320-438).  scanMetadata is the outcome of the wrapper's
populateChunkMetadata scan (the metadata keys it produces, or the
exception it raises); populate and elapsed drive the re-population loop;
cacheMetadataVecErr is the exception raised by the cacheMetadataVec call,
none when it succeeds.  Wrapper creation, recoverDataWrapperFromDisk and
serializeDataWrapperInternals mutate only the wrapper and its on-disk
state, not the cache stores modelled here.  The steps, in source order:
return early when the cache is disabled; snapshot old_chunk_keys; run the
metadata scan (an exception here escapes unchanged); in append mode
compute last_frag_id as the running max (seeded with 0) of the fragment
ids of the currently cached metadata of the table, otherwise clear the
table from the cache; inside the try block cache the (append-filtered)
metadata, run the re-population loop over old_chunk_keys, flush the last
batch and promote chunk_keys_to_be_cached via cacheTableChunks; any
exception inside the try block is rethrown as
PostEvictionRefreshException. -/
def refreshTableInCache (is_cache_enabled append_mode : Bool)
    (cache : CacheState) (scanMetadata : Except String (List ChunkKey))
    (populate : List ChunkKey → Option String)
    (cacheMetadataVecErr : Option String) (elapsed : Nat → Int)
    (table_key : ChunkKey) : RefreshOutcome :=
  if !is_cache_enabled then
    { cache := cache, err := none, last_frag_id := 0, clearedTable := false
      cachedMetadataArg := none, populateCalls := [], warned := false
      total_time := 0, cacheTableChunksArg := none, checkFailed := false }
  else
    let old_chunk_keys := cache.chunkKeys.filter (underTableKey table_key)
    match scanMetadata with
    | .error e =>
      { cache := cache, err := some (.original e), last_frag_id := 0
        clearedTable := false, cachedMetadataArg := none, populateCalls := []
        warned := false, total_time := 0, cacheTableChunksArg := none
        checkFailed := false }
    | .ok metadata_vec =>
      let last_frag_id : Int :=
        if append_mode then
          if cache.metadataKeys.any (fun k => underTableKey table_key k) then
            (cache.metadataKeys.filter (fun k => underTableKey table_key k)).foldl
              (fun acc k => max acc (k.getD CHUNK_KEY_FRAGMENT_IDX 0)) 0
          else 0
        else 0
      let cache1 := if append_mode then cache else clearForTableOp cache table_key
      let new_metadata_vec :=
        if append_mode then
          metadata_vec.filter
            (fun k => decide (last_frag_id ≤ k.getD CHUNK_KEY_FRAGMENT_IDX 0))
        else metadata_vec
      match cacheMetadataVecErr with
      | some e =>
        { cache := cache1, err := some (.postEvictionRefresh e)
          last_frag_id := last_frag_id, clearedTable := !append_mode
          cachedMetadataArg := some new_metadata_vec, populateCalls := []
          warned := false, total_time := 0, cacheTableChunksArg := none
          checkFailed := false }
      | none =>
        let cache2 : CacheState :=
          { cache1 with metadataKeys := cache1.metadataKeys ++ new_metadata_vec }
        if old_chunk_keys = [] then
          { cache := cache2, err := none, last_frag_id := last_frag_id
            clearedTable := !append_mode, cachedMetadataArg := some new_metadata_vec
            populateCalls := [], warned := false, total_time := 0
            cacheTableChunksArg := none, checkFailed := false }
        else
          let st0 : RefreshLoopState :=
            { fragment_id := (old_chunk_keys.headD []).getD CHUNK_KEY_FRAGMENT_IDX 0
              chunk_keys_in_fragment := [], chunk_keys_to_be_cached := []
              total_time := 0, tick := 0, populateCalls := [], warned := false
              failed := none, checkFailed := false }
          refreshFinish populate cache2 last_frag_id append_mode new_metadata_vec
            (refreshLoop append_mode last_frag_id cache2.metadataKeys
              populate elapsed old_chunk_keys st0)

/-- Observable outcome of ForeignStorageMgr::recoverDataWrapperFromDisk:
the returned boolean and, when restoreDataWrapperInternals was invoked,
the recovered metadata passed to it. -/
structure RecoverOutcome where
  result : Bool
  restoreCalledWith : Option (List ChunkKey)
deriving DecidableEq

/-- Model of ForeignStorageMgr::recoverDataWrapperFromDisk
(ForeignStorageMgr.cpp lines 278-304).  hasCachedMetadataForKeyPfx is the
cache's hasCachedMetadataForKeyPrefix probe for the table key,
cachedMetadataVec what getCachedMetadataVecForKeyPrefix would fill in
that case, recoverCacheForTable the metadata recovered from disk when
that fallback succeeds (none when it fails), and wrapperFileExists the
boost::filesystem::exists probe for the table's wrapper_metadata.json. -/
def recoverDataWrapperFromDisk (is_cache_enabled : Bool)
    (hasCachedMetadataForKeyPfx : Bool) (cachedMetadataVec : List ChunkKey)
    (recoverCacheForTable : Option (List ChunkKey))
    (wrapperFileExists : Bool) : RecoverOutcome :=
  if !is_cache_enabled then { result := false, restoreCalledWith := none }
  else
    let recovered : Bool × List ChunkKey :=
      if hasCachedMetadataForKeyPfx then (true, cachedMetadataVec)
      else
        match recoverCacheForTable with
        | some vec => (true, vec)
        | none => (false, [])
    if wrapperFileExists && recovered.1 then
      { result := true, restoreCalledWith := some recovered.2 }
    else
      { result := false, restoreCalledWith := none }

/-- The foreign server's data_wrapper_type as compared by
createDataWrapperIfNotExists against DataWrapperType::CSV and
DataWrapperType::PARQUET; any other kind is rejected. -/
inductive DataWrapperKind where
  | CSV
  | PARQUET
  | other (name : String)
deriving DecidableEq

/-- A constructed data wrapper: CsvDataWrapper or ParquetDataWrapper built
from the db id and the foreign table (identified by its table id). -/
inductive DataWrapper where
  | csv (db_id table_id : Int)
  | parquet (db_id table_id : Int)
deriving DecidableEq

/-- Lookup in data_wrapper_map_ by table key. -/
def lookupWrapper : List (ChunkKey × DataWrapper) → ChunkKey → Option DataWrapper
  | [], _ => none
  | (k, w) :: rest, key => if k = key then some w else lookupWrapper rest key

/-- Observable outcome of ForeignStorageMgr::createDataWrapperIfNotExists:
the returned boolean (none when an exception was thrown), the thrown
message, and the data_wrapper_map_ afterwards. -/
structure CreateWrapperOutcome where
  returned : Option Bool
  thrown : Option String
  map : List (ChunkKey × DataWrapper)
deriving DecidableEq

/-- Model of ForeignStorageMgr::createDataWrapperIfNotExists
(ForeignStorageMgr.cpp lines 255-276): under the wrapper-map lock, if a
wrapper for the chunk key's table exists return false; otherwise build a
CsvDataWrapper or ParquetDataWrapper according to the foreign table's
data wrapper kind and return true, or throw "Unsupported data wrapper"
leaving the map untouched. -/
def createDataWrapperIfNotExists (m : List (ChunkKey × DataWrapper))
    (chunk_key : ChunkKey) (kind : DataWrapperKind) : CreateWrapperOutcome :=
  let db_id := chunk_key.getD CHUNK_KEY_DB_IDX 0
  let table_id := chunk_key.getD CHUNK_KEY_TABLE_IDX 0
  let table_key : ChunkKey := [db_id, table_id]
  match lookupWrapper m table_key with
  | some _ => { returned := some false, thrown := none, map := m }
  | none =>
    match kind with
    | .CSV =>
      { returned := some true, thrown := none
        map := m ++ [(table_key, .csv db_id table_id)] }
    | .PARQUET =>
      { returned := some true, thrown := none
        map := m ++ [(table_key, .parquet db_id table_id)] }
    | .other _ =>
      { returned := none, thrown := some "Unsupported data wrapper", map := m }

/-- Model of ForeignStorageMgr::isDatawrapperRestored
(ForeignStorageMgr.cpp lines 461-466): false when no wrapper is
registered for the chunk key's table (hasDataWrapperForChunk), otherwise
the wrapper's isRestored value, supplied by the oracle restored. -/
def isDatawrapperRestored (m : List (ChunkKey × DataWrapper))
    (restored : DataWrapper → Bool) (chunk_key : ChunkKey) : Bool :=
  match lookupWrapper m
      [chunk_key.getD CHUNK_KEY_DB_IDX 0, chunk_key.getD CHUNK_KEY_TABLE_IDX 0] with
  | none => false
  | some w => restored w

/-- Lexicographic strict order on chunk keys: operator< of std vector of
int, the order of the sorted temp_chunk_buffer_map_. -/
def keyLt : ChunkKey → ChunkKey → Bool
  | _, [] => false
  | [], _ :: _ => true
  | a :: as, b :: bs => a < b || (a == b && keyLt as bs)

/-- The INT_MAX sentinel used as the third component of the upper-bound
key in clearTempChunkBufferMapEntriesForTable. -/
def intMaxSentinel : Int := 2147483647

/-- Model of ForeignStorageMgr::clearTempChunkBufferMapEntriesForTable
(ForeignStorageMgr.cpp lines 449-459).  On the sorted
temp_chunk_buffer_map_, erase(lower_bound(table_key),
upper_bound([db, table, INT_MAX])) removes exactly the entries whose key
lies in the closed lexicographic interval from table_key to the
upper-bound key; on the association-list model this is a filter keeping
each entry whose key is lexicographically below table_key or above the
upper-bound key. -/
def clearTempChunkBufferMapEntriesForTable (m : List (ChunkKey × Nat))
    (table_key : ChunkKey) : List (ChunkKey × Nat) :=
  let upper_bound : ChunkKey :=
    [table_key.getD CHUNK_KEY_DB_IDX 0, table_key.getD CHUNK_KEY_TABLE_IDX 0,
     intMaxSentinel]
  m.filter (fun e => keyLt e.1 table_key || keyLt upper_bound e.1)

/-- Schema fixture: logical column 2 is variable-length with one extra
physical column (column 3, fixed-length); every other column is its own
fixed-length logical column. -/
def geoSchemaFix : ForeignTableSchema where
  getLogicalColumn := fun c =>
    if c = 2 ∨ c = 3 then { columnId := 2, columnType := { physicalCols := 1, varlenIndeed := true } }
    else { columnId := c, columnType := { physicalCols := 0, varlenIndeed := false } }
  getColumnDescriptor := fun c =>
    { columnId := c
      columnType :=
        if c = 2 then { physicalCols := 1, varlenIndeed := true }
        else { physicalCols := 0, varlenIndeed := false } }

/-- Schema fixture: every column is a fixed-length logical column of its
own. -/
def scalarSchemaFix : ForeignTableSchema where
  getLogicalColumn := fun c =>
    { columnId := c, columnType := { physicalCols := 0, varlenIndeed := false } }
  getColumnDescriptor := fun c =>
    { columnId := c, columnType := { physicalCols := 0, varlenIndeed := false } }

/-- Schema fixture: every column is a variable-length logical column of
its own. -/
def varlenSchemaFix : ForeignTableSchema where
  getLogicalColumn := fun c =>
    { columnId := c, columnType := { physicalCols := 0, varlenIndeed := true } }
  getColumnDescriptor := fun c =>
    { columnId := c, columnType := { physicalCols := 0, varlenIndeed := true } }

/-- Cache fixture with one cached metadata entry and one cached chunk for
table (1, 2). -/
def cacheFix : CacheState where
  metadataKeys := [[1, 2, 3, 0]]
  chunkKeys := [[1, 2, 3, 0]]

/-- Membership in the key-emission loop: a key is produced if and only if
some column id in the half-open window of the loop produces it. -/
theorem mem_fanoutColumnLoop (schema : ForeignTableSchema) (db tbl frag : Int)
    (cid : Int) (n : Nat) (k : ChunkKey) :
    k ∈ fanoutColumnLoop schema db tbl frag cid n ↔
      ∃ i : Nat, i < n ∧
        (((schema.getColumnDescriptor (cid + i)).columnType.varlenIndeed = true ∧
          (k = [db, tbl, (schema.getColumnDescriptor (cid + i)).columnId, frag, 1] ∨
           k = [db, tbl, (schema.getColumnDescriptor (cid + i)).columnId, frag, 2])) ∨
         ((schema.getColumnDescriptor (cid + i)).columnType.varlenIndeed = false ∧
          k = [db, tbl, (schema.getColumnDescriptor (cid + i)).columnId, frag])) := by
  induction n generalizing cid with
  | zero => simp [fanoutColumnLoop]
  | succ n ih =>
    simp only [fanoutColumnLoop, List.mem_append]
    constructor
    · rintro (hmem | hmem)
      · refine ⟨0, Nat.succ_pos _, ?_⟩
        rcases hv : (schema.getColumnDescriptor cid).columnType.varlenIndeed with _ | _ <;>
          simp [hv] at hmem <;> simp [hv, hmem, Int.add_zero]
      · obtain ⟨i, hi, hp⟩ := (ih (cid + 1)).mp hmem
        refine ⟨i + 1, by omega, ?_⟩
        have harith : cid + 1 + (i : Int) = cid + ((i : Nat) + 1 : Nat) := by
          push_cast; ring
        rwa [harith] at hp
    · rintro ⟨i, hi, hp⟩
      cases i with
      | zero =>
        left
        rcases hv : (schema.getColumnDescriptor cid).columnType.varlenIndeed with _ | _
        · simp [hv, Int.add_zero] at hp
          simp [hv, hp]
        · simp [hv, Int.add_zero] at hp
          rcases hp with hp | hp <;> simp [hv, hp]
      | succ i =>
        right
        refine (ih (cid + 1)).mpr ⟨i, by omega, ?_⟩
        have harith : cid + 1 + (i : Int) = cid + ((i : Nat) + 1 : Nat) := by
          push_cast; ring
        rwa [harith]

/-- Bridge between the loop's natural-number window and a range of column
ids. -/
theorem exists_window_iff_range (L : Int) (P : Nat) (Q : Int → Prop) :
    (∃ i : Nat, i < P + 1 ∧ Q (L + i)) ↔
      (∃ c : Int, L ≤ c ∧ c ≤ L + P ∧ Q c) := by
  constructor
  · rintro ⟨i, hi, hq⟩
    exact ⟨L + i, by omega, by omega, hq⟩
  · rintro ⟨c, h1, h2, hq⟩
    refine ⟨(c - L).toNat, by omega, ?_⟩
    have h : L + ((c - L).toNat : Int) = c := by omega
    rw [h]; exact hq

/-- C1.  For a fetchBuffer request whose chunk key names physical column c
of logical column L, the fanout set computed by getChunkBuffersToPopulate
contains, for every physical column cid in L's contiguous physical range,
exactly the sibling keys (db,t,cid,f,1) and (db,t,cid,f,2) when cid is
variable-length-indeed and exactly (db,t,cid,f) otherwise, and the set
contains the requested key itself (the containment fatally asserted by
CHECK at ForeignStorageMgr.cpp line 89), provided the requested key is
shaped consistently with its column's type (four components for a
fixed-length column, subchunk 1 or 2 for a variable-length one). -/
theorem getChunkBuffersToPopulate_fanout
    (schema : ForeignTableSchema) (db tbl col frag : Int) (key : ChunkKey)
    (hcons : ∀ cid : Int, (schema.getColumnDescriptor cid).columnId = cid)
    (hlow : (schema.getLogicalColumn col).columnId ≤ col)
    (hhigh : col ≤ (schema.getLogicalColumn col).columnId +
      ((schema.getLogicalColumn col).columnType.physicalCols : Int))
    (hkey : ((schema.getColumnDescriptor col).columnType.varlenIndeed = false ∧
              key = [db, tbl, col, frag]) ∨
            ((schema.getColumnDescriptor col).columnType.varlenIndeed = true ∧
              (key = [db, tbl, col, frag, 1] ∨ key = [db, tbl, col, frag, 2]))) :
    (∀ k, k ∈ getChunkBuffersToPopulateKeys schema key ↔
      ∃ cid : Int,
        (schema.getLogicalColumn col).columnId ≤ cid ∧
        cid ≤ (schema.getLogicalColumn col).columnId +
          ((schema.getLogicalColumn col).columnType.physicalCols : Int) ∧
        (((schema.getColumnDescriptor cid).columnType.varlenIndeed = true ∧
          (k = [db, tbl, cid, frag, 1] ∨ k = [db, tbl, cid, frag, 2])) ∨
         ((schema.getColumnDescriptor cid).columnType.varlenIndeed = false ∧
          k = [db, tbl, cid, frag]))) ∧
    key ∈ getChunkBuffersToPopulateKeys schema key := by
  have hchar : ∀ k, k ∈ getChunkBuffersToPopulateKeys schema key ↔
      ∃ cid : Int,
        (schema.getLogicalColumn col).columnId ≤ cid ∧
        cid ≤ (schema.getLogicalColumn col).columnId +
          ((schema.getLogicalColumn col).columnType.physicalCols : Int) ∧
        (((schema.getColumnDescriptor cid).columnType.varlenIndeed = true ∧
          (k = [db, tbl, cid, frag, 1] ∨ k = [db, tbl, cid, frag, 2])) ∨
         ((schema.getColumnDescriptor cid).columnType.varlenIndeed = false ∧
          k = [db, tbl, cid, frag])) := by
    intro k
    have hunfold : getChunkBuffersToPopulateKeys schema key =
        fanoutColumnLoop schema db tbl frag (schema.getLogicalColumn col).columnId
          ((schema.getLogicalColumn col).columnType.physicalCols + 1) := by
      rcases hkey with ⟨_, hk⟩ | ⟨_, hk | hk⟩ <;> subst hk <;>
        simp [getChunkBuffersToPopulateKeys, CHUNK_KEY_DB_IDX, CHUNK_KEY_TABLE_IDX,
          CHUNK_KEY_COLUMN_IDX, CHUNK_KEY_FRAGMENT_IDX, List.getD]
    rw [hunfold, mem_fanoutColumnLoop]
    simp only [hcons]
    exact exists_window_iff_range (schema.getLogicalColumn col).columnId
      (schema.getLogicalColumn col).columnType.physicalCols
      (fun c => ((schema.getColumnDescriptor c).columnType.varlenIndeed = true ∧
          (k = [db, tbl, c, frag, 1] ∨ k = [db, tbl, c, frag, 2])) ∨
        ((schema.getColumnDescriptor c).columnType.varlenIndeed = false ∧
          k = [db, tbl, c, frag]))
  refine ⟨hchar, ?_⟩
  rw [hchar key]
  refine ⟨col, hlow, hhigh, ?_⟩
  rcases hkey with ⟨hv, hk⟩ | ⟨hv, hk⟩
  · exact Or.inr ⟨hv, hk⟩
  · exact Or.inl ⟨hv, hk⟩

/-- Witness for C1 at a concrete schema: requesting the variable-length
data key of column 2 of table (1,1), fragment 7, yields a fanout set
containing the requested key. -/
theorem getChunkBuffersToPopulate_fanout_witness :
    [1, 1, 2, 7, 1] ∈ getChunkBuffersToPopulateKeys geoSchemaFix [1, 1, 2, 7, 1] :=
  (getChunkBuffersToPopulate_fanout geoSchemaFix 1 1 2 7 [1, 1, 2, 7, 1]
    (fun _ => rfl) (by decide) (by decide)
    (Or.inr ⟨by decide, Or.inl rfl⟩)).2

/-- C2 counterexample.  With the cache disabled and an empty staging map,
a request for the variable-length data key of column 2 misses, the fanout
set has two sibling keys, and nevertheless the source buffer is the
destination buffer itself (the wrapper writes into the destination
directly); this refutes the claim that source = destination occurs
exactly when the fanout set is a single key. -/
theorem fetchBuffer_src_eq_dst_with_siblings_counterexample :
    (fetchBuffer false none [] varlenSchemaFix (fun _ => 3) (fun _ => 9)
      [1, 1, 2, 0, 1] 0 64).src = 0 ∧
    (fetchBuffer false none [] varlenSchemaFix (fun _ => 3) (fun _ => 9)
      [1, 1, 2, 0, 1] 0 64).chunk_keys = [[1, 1, 2, 0, 1], [1, 1, 2, 0, 2]] := by
  constructor <;> rfl

/-- C2 (amended).  In every fetchBuffer call the source buffer is copied
into the destination buffer if and only if the two are distinct, and
source = destination occurs exactly in the cache-disabled miss case (the
requested key absent from the staging map), regardless of the size of the
fanout set; in every cache-enabled fetch num_bytes bytes are copied from
the source buffer into the destination buffer.  The hypotheses record
that buffers owned by the cache or the staging map are distinct objects
from the caller's destination buffer. -/
theorem fetchBuffer_copy_iff_distinct
    (is_cache_enabled : Bool) (cacheLookup : Option Nat)
    (staging : List (ChunkKey × Nat)) (schema : ForeignTableSchema)
    (cacheAlloc stagingAlloc : ChunkKey → Nat) (chunk_key : ChunkKey)
    (dst : Nat) (num_bytes : Nat)
    (hcache : ∀ b, cacheLookup = some b → b ≠ dst)
    (hstag : ∀ b, lookupStaging staging chunk_key = some b → b ≠ dst)
    (halloc : cacheAlloc chunk_key ≠ dst) :
    ((fetchBuffer is_cache_enabled cacheLookup staging schema cacheAlloc
        stagingAlloc chunk_key dst num_bytes).copied = true ↔
      (fetchBuffer is_cache_enabled cacheLookup staging schema cacheAlloc
        stagingAlloc chunk_key dst num_bytes).src ≠ dst) ∧
    ((fetchBuffer is_cache_enabled cacheLookup staging schema cacheAlloc
        stagingAlloc chunk_key dst num_bytes).src = dst ↔
      (is_cache_enabled = false ∧ lookupStaging staging chunk_key = none)) ∧
    (is_cache_enabled = true →
      (fetchBuffer is_cache_enabled cacheLookup staging schema cacheAlloc
        stagingAlloc chunk_key dst num_bytes).copied = true ∧
      (fetchBuffer is_cache_enabled cacheLookup staging schema cacheAlloc
        stagingAlloc chunk_key dst num_bytes).copiedBytes = some num_bytes) := by
  cases is_cache_enabled with
  | false =>
    cases hsl : lookupStaging staging chunk_key with
    | none => simp [fetchBuffer, hsl]
    | some b =>
      have hb := hstag b hsl
      simp [fetchBuffer, hsl, hb]
  | true =>
    cases hcl : cacheLookup with
    | none => simp [fetchBuffer, hcl, halloc]
    | some b =>
      have hb := hcache b hcl
      simp [fetchBuffer, hcl, hb]

/-- Witness for C2 at a concrete cache-enabled hit: the cached buffer 5 is
copied into destination buffer 0 with the requested 64 bytes. -/
theorem fetchBuffer_copy_iff_distinct_witness :
    (fetchBuffer true (some 5) [] scalarSchemaFix (fun _ => 3) (fun _ => 9)
      [1, 1, 2, 0] 0 64).copied = true ∧
    (fetchBuffer true (some 5) [] scalarSchemaFix (fun _ => 3) (fun _ => 9)
      [1, 1, 2, 0] 0 64).copiedBytes = some 64 :=
  (fetchBuffer_copy_iff_distinct true (some 5) [] scalarSchemaFix
    (fun _ => 3) (fun _ => 9) [1, 1, 2, 0] 0 64
    (by intro b hb; simp at hb; omega)
    (by intro b hb; simp [lookupStaging] at hb)
    (by decide)).2.2 rfl

/-- C3.  In every cache-enabled fetchBuffer call: on a cache hit no
cacheTableChunks write-back is made, and on a cache miss exactly one
cacheTableChunks call promotes the entire fanout set computed by
getChunkBuffersToPopulate. -/
theorem fetchBuffer_cache_promotion
    (cacheLookup : Option Nat) (staging : List (ChunkKey × Nat))
    (schema : ForeignTableSchema) (cacheAlloc stagingAlloc : ChunkKey → Nat)
    (chunk_key : ChunkKey) (dst : Nat) (num_bytes : Nat) :
    (∀ b, cacheLookup = some b →
      (fetchBuffer true cacheLookup staging schema cacheAlloc stagingAlloc
        chunk_key dst num_bytes).cacheTableChunksArg = none) ∧
    (cacheLookup = none →
      (fetchBuffer true cacheLookup staging schema cacheAlloc stagingAlloc
        chunk_key dst num_bytes).cacheTableChunksArg =
        some (getChunkBuffersToPopulateKeys schema chunk_key)) := by
  constructor
  · intro b hb
    simp [fetchBuffer, hb]
  · intro hb
    simp [fetchBuffer, hb]

/-- Witness for C3 at a concrete cache miss: the write-back argument is
the fanout set of the requested key. -/
theorem fetchBuffer_cache_promotion_witness :
    (fetchBuffer true none [] scalarSchemaFix (fun _ => 3) (fun _ => 9)
      [1, 1, 2, 0] 0 64).cacheTableChunksArg =
      some (getChunkBuffersToPopulateKeys scalarSchemaFix [1, 1, 2, 0]) :=
  (fetchBuffer_cache_promotion none [] scalarSchemaFix (fun _ => 3)
    (fun _ => 9) [1, 1, 2, 0] 0 64).2 rfl

/-- Projection facts about refreshFinish: the reported last_frag_id is
the one passed in. -/
theorem refreshFinish_last_frag (populate : List ChunkKey → Option String)
    (cache2 : CacheState) (last_frag_id : Int) (append_mode : Bool)
    (new_metadata_vec : List ChunkKey) (st : RefreshLoopState) :
    (refreshFinish populate cache2 last_frag_id append_mode new_metadata_vec
      st).last_frag_id = last_frag_id := by
  unfold refreshFinish
  repeat' split
  all_goals rfl

/-- refreshFinish reports the clearedTable flag of the mode it was given
and never clears anything itself. -/
theorem refreshFinish_clearedTable (populate : List ChunkKey → Option String)
    (cache2 : CacheState) (last_frag_id : Int) (append_mode : Bool)
    (new_metadata_vec : List ChunkKey) (st : RefreshLoopState) :
    (refreshFinish populate cache2 last_frag_id append_mode new_metadata_vec
      st).clearedTable = !append_mode := by
  unfold refreshFinish
  repeat' split
  all_goals rfl

/-- refreshFinish reports the metadata vector that was passed to
cacheMetadataVec. -/
theorem refreshFinish_cachedMetadataArg (populate : List ChunkKey → Option String)
    (cache2 : CacheState) (last_frag_id : Int) (append_mode : Bool)
    (new_metadata_vec : List ChunkKey) (st : RefreshLoopState) :
    (refreshFinish populate cache2 last_frag_id append_mode new_metadata_vec
      st).cachedMetadataArg = some new_metadata_vec := by
  unfold refreshFinish
  repeat' split
  all_goals rfl

/-- refreshFinish never touches the metadata store. -/
theorem refreshFinish_cache_metadataKeys (populate : List ChunkKey → Option String)
    (cache2 : CacheState) (last_frag_id : Int) (append_mode : Bool)
    (new_metadata_vec : List ChunkKey) (st : RefreshLoopState) :
    (refreshFinish populate cache2 last_frag_id append_mode new_metadata_vec
      st).cache.metadataKeys = cache2.metadataKeys := by
  unfold refreshFinish
  repeat' split
  all_goals rfl

/-- refreshFinish either leaves the chunk store alone without promoting
anything, or appends exactly the to-be-cached accumulator with one
cacheTableChunks call. -/
theorem refreshFinish_chunkKeys_or (populate : List ChunkKey → Option String)
    (cache2 : CacheState) (last_frag_id : Int) (append_mode : Bool)
    (new_metadata_vec : List ChunkKey) (st : RefreshLoopState) :
    ((refreshFinish populate cache2 last_frag_id append_mode new_metadata_vec
        st).cache.chunkKeys = cache2.chunkKeys ∧
      (refreshFinish populate cache2 last_frag_id append_mode new_metadata_vec
        st).cacheTableChunksArg = none) ∨
    ((refreshFinish populate cache2 last_frag_id append_mode new_metadata_vec
        st).cache.chunkKeys = cache2.chunkKeys ++ st.chunk_keys_to_be_cached ∧
      (refreshFinish populate cache2 last_frag_id append_mode new_metadata_vec
        st).cacheTableChunksArg = some st.chunk_keys_to_be_cached) := by
  unfold refreshFinish
  repeat' split
  all_goals first
    | exact Or.inl ⟨rfl, rfl⟩
    | exact Or.inr ⟨rfl, rfl⟩

/-- Every populateChunkBuffers batch reported by refreshFinish is either a
batch of the loop or the final pending batch. -/
theorem refreshFinish_calls_sub (populate : List ChunkKey → Option String)
    (cache2 : CacheState) (last_frag_id : Int) (append_mode : Bool)
    (new_metadata_vec : List ChunkKey) (st : RefreshLoopState) :
    ∀ b ∈ (refreshFinish populate cache2 last_frag_id append_mode
      new_metadata_vec st).populateCalls,
      b ∈ st.populateCalls ∨ b = st.chunk_keys_in_fragment := by
  unfold refreshFinish
  repeat' split
  all_goals intro b hb
  all_goals first
    | exact Or.inl hb
    | (rcases List.mem_append.mp hb with hb | hb <;>
        first
        | exact Or.inl hb
        | exact Or.inr (List.mem_singleton.mp hb))

/-- Every exception escaping refreshFinish is wrapped as a
PostEvictionRefreshException. -/
theorem refreshFinish_err_post (populate : List ChunkKey → Option String)
    (cache2 : CacheState) (last_frag_id : Int) (append_mode : Bool)
    (new_metadata_vec : List ChunkKey) (st : RefreshLoopState) :
    ∀ er, (refreshFinish populate cache2 last_frag_id append_mode
      new_metadata_vec st).err = some er →
      ∃ msg, er = RefreshError.postEvictionRefresh msg := by
  intro er hout
  unfold refreshFinish at hout
  repeat' split at hout
  all_goals
    first
    | (simp only [Option.some.injEq] at hout; exact ⟨_, hout.symm⟩)
    | (exact ⟨_, hout.symm⟩)
    | simp_all

/-- refreshFinish reports the loop's warning flag verbatim. -/
theorem refreshFinish_warned (populate : List ChunkKey → Option String)
    (cache2 : CacheState) (last_frag_id : Int) (append_mode : Bool)
    (new_metadata_vec : List ChunkKey) (st : RefreshLoopState) :
    (refreshFinish populate cache2 last_frag_id append_mode new_metadata_vec
      st).warned = st.warned := by
  unfold refreshFinish
  repeat' split
  all_goals rfl

/-- refreshFinish reports the loop's accumulated total_time verbatim. -/
theorem refreshFinish_total_time (populate : List ChunkKey → Option String)
    (cache2 : CacheState) (last_frag_id : Int) (append_mode : Bool)
    (new_metadata_vec : List ChunkKey) (st : RefreshLoopState) :
    (refreshFinish populate cache2 last_frag_id append_mode new_metadata_vec
      st).total_time = st.total_time := by
  unfold refreshFinish
  repeat' split
  all_goals rfl

/-- refreshFinish reports the loop's CHECK-failure flag verbatim. -/
theorem refreshFinish_checkFailed (populate : List ChunkKey → Option String)
    (cache2 : CacheState) (last_frag_id : Int) (append_mode : Bool)
    (new_metadata_vec : List ChunkKey) (st : RefreshLoopState) :
    (refreshFinish populate cache2 last_frag_id append_mode new_metadata_vec
      st).checkFailed = st.checkFailed := by
  unfold refreshFinish
  repeat' split
  all_goals simp_all

/-- On a loop state with no CHECK failure and no pending exception, and a
final flush that succeeds, refreshFinish raises nothing, promotes exactly
the to-be-cached accumulator and appends it to the chunk store. -/
theorem refreshFinish_success (populate : List ChunkKey → Option String)
    (cache2 : CacheState) (last_frag_id : Int) (append_mode : Bool)
    (new_metadata_vec : List ChunkKey) (st : RefreshLoopState) :
    st.checkFailed = false → st.failed = none →
    populate st.chunk_keys_in_fragment = none →
    ((refreshFinish populate cache2 last_frag_id append_mode new_metadata_vec
        st).err = none ∧
      (refreshFinish populate cache2 last_frag_id append_mode new_metadata_vec
        st).cache.chunkKeys = cache2.chunkKeys ++ st.chunk_keys_to_be_cached ∧
      (refreshFinish populate cache2 last_frag_id append_mode new_metadata_vec
        st).cacheTableChunksArg = some st.chunk_keys_to_be_cached) := by
  intro hcf hf hp
  unfold refreshFinish
  repeat' split
  all_goals simp_all

/-- C5.  In a non-evicting refreshTableInCache, an exception raised by the
wrapper's metadata scan (which runs before any cache eviction) propagates
unchanged and leaves the cached chunks and metadata exactly as they were,
while every exception raised inside the try block (metadata re-caching or
warm-chunk re-population) escapes wrapped as a
PostEvictionRefreshException. -/
theorem refreshTableInCache_error_policy
    (append_mode : Bool) (cache : CacheState)
    (scanMetadata : Except String (List ChunkKey))
    (populate : List ChunkKey → Option String)
    (cacheMetadataVecErr : Option String) (elapsed : Nat → Int)
    (table_key : ChunkKey) :
    (∀ e, scanMetadata = .error e →
      (refreshTableInCache true append_mode cache scanMetadata populate
        cacheMetadataVecErr elapsed table_key).err = some (.original e) ∧
      (refreshTableInCache true append_mode cache scanMetadata populate
        cacheMetadataVecErr elapsed table_key).cache = cache) ∧
    (∀ mv, scanMetadata = .ok mv → ∀ er,
      (refreshTableInCache true append_mode cache scanMetadata populate
        cacheMetadataVecErr elapsed table_key).err = some er →
      ∃ msg, er = RefreshError.postEvictionRefresh msg) := by
  constructor
  · intro e he
    rw [he]
    constructor <;> simp [refreshTableInCache]
  · intro mv hmv er hout
    rw [hmv] at hout
    rw [refreshTableInCache] at hout
    simp only [Bool.not_true, Bool.false_eq_true, if_false] at hout
    repeat' split at hout
    all_goals
      first
      | (simp only [Option.some.injEq] at hout; exact ⟨_, hout.symm⟩)
      | (exact ⟨_, hout.symm⟩)
      | (exact refreshFinish_err_post _ _ _ _ _ _ er hout)
      | simp_all

/-- Witness for C5 at a concrete state: a failing metadata scan escapes
unchanged and leaves the cache untouched. -/
theorem refreshTableInCache_error_policy_witness :
    (refreshTableInCache true false cacheFix (.error "scan failure")
      (fun _ => none) none (fun _ => 0) [1, 2]).err =
        some (RefreshError.original "scan failure") ∧
    (refreshTableInCache true false cacheFix (.error "scan failure")
      (fun _ => none) none (fun _ => 0) [1, 2]).cache = cacheFix :=
  (refreshTableInCache_error_policy false cacheFix (.error "scan failure")
    (fun _ => none) none (fun _ => 0) [1, 2]).1 "scan failure" rfl

/-- The fragment-id fold of refreshTableInCache never goes below its
seed. -/
theorem foldl_max_frag_init_le (l : List ChunkKey) (a : Int) :
    a ≤ l.foldl (fun acc k => max acc (k.getD CHUNK_KEY_FRAGMENT_IDX 0)) a := by
  induction l generalizing a with
  | nil => simp
  | cons h t ih => exact le_trans (le_max_left _ _) (ih _)

/-- The fragment-id fold dominates the fragment id of every list
element. -/
theorem foldl_max_frag_mem_le (l : List ChunkKey) :
    ∀ (a : Int) (k : ChunkKey), k ∈ l →
      k.getD CHUNK_KEY_FRAGMENT_IDX 0 ≤
        l.foldl (fun acc k => max acc (k.getD CHUNK_KEY_FRAGMENT_IDX 0)) a := by
  induction l with
  | nil => intro a k hk; cases hk
  | cons h t ih =>
    intro a k hk
    rcases List.mem_cons.mp hk with rfl | hk'
    · exact le_trans (le_max_right _ _) (foldl_max_frag_init_le _ _)
    · exact ih _ k hk'

/-- The fragment-id fold is either its seed or the fragment id of a list
element. -/
theorem foldl_max_frag_attained (l : List ChunkKey) :
    ∀ a : Int,
      l.foldl (fun acc k => max acc (k.getD CHUNK_KEY_FRAGMENT_IDX 0)) a = a ∨
      ∃ k ∈ l, l.foldl (fun acc k => max acc (k.getD CHUNK_KEY_FRAGMENT_IDX 0)) a =
        k.getD CHUNK_KEY_FRAGMENT_IDX 0 := by
  induction l with
  | nil => intro a; left; rfl
  | cons h t ih =>
    intro a
    simp only [List.foldl_cons]
    rcases ih (max a (h.getD CHUNK_KEY_FRAGMENT_IDX 0)) with heq | ⟨k, hk, heq⟩
    · rcases max_choice a (h.getD CHUNK_KEY_FRAGMENT_IDX 0) with hm | hm
      · left
        exact heq.trans hm
      · right
        exact ⟨h, List.mem_cons_self _ _, heq.trans hm⟩
    · right
      exact ⟨k, List.mem_cons_of_mem _ hk, heq⟩

/-- The keys addKeyStep appends to the batch and to the to-be-cached
accumulator all share the fragment id of the added chunk key, and the
record of populateChunkBuffers calls is untouched. -/
theorem addKeyStep_frag_ge (last : Int) (chunk_key : ChunkKey)
    (st : RefreshLoopState)
    (hkey : last ≤ chunk_key.getD CHUNK_KEY_FRAGMENT_IDX 0)
    (hbatch : ∀ k ∈ st.chunk_keys_in_fragment,
      last ≤ k.getD CHUNK_KEY_FRAGMENT_IDX 0)
    (hcached : ∀ k ∈ st.chunk_keys_to_be_cached,
      last ≤ k.getD CHUNK_KEY_FRAGMENT_IDX 0) :
    (addKeyStep chunk_key st).populateCalls = st.populateCalls ∧
    (∀ k ∈ (addKeyStep chunk_key st).chunk_keys_in_fragment,
      last ≤ k.getD CHUNK_KEY_FRAGMENT_IDX 0) ∧
    (∀ k ∈ (addKeyStep chunk_key st).chunk_keys_to_be_cached,
      last ≤ k.getD CHUNK_KEY_FRAGMENT_IDX 0) := by
  unfold addKeyStep
  split
  · split
    · refine ⟨rfl, ?_, ?_⟩
      · intro k hk
        simp only [List.mem_append, List.mem_cons, List.not_mem_nil, or_false] at hk
        rcases hk with hk | hk | hk
        · exact hbatch k hk
        · subst hk; exact hkey
        · subst hk; exact hkey
      · intro k hk
        simp only [List.mem_append, List.mem_cons, List.not_mem_nil, or_false] at hk
        rcases hk with hk | hk | hk
        · exact hcached k hk
        · subst hk; exact hkey
        · subst hk; exact hkey
    · exact ⟨rfl, hbatch, hcached⟩
  · refine ⟨rfl, ?_, ?_⟩
    · intro k hk
      simp only [List.mem_append, List.mem_cons, List.not_mem_nil, or_false] at hk
      rcases hk with hk | hk
      · exact hbatch k hk
      · subst hk; exact hkey
    · intro k hk
      simp only [List.mem_append, List.mem_cons, List.not_mem_nil, or_false] at hk
      rcases hk with hk | hk
      · exact hcached k hk
      · subst hk; exact hkey

/-- In append mode the re-population loop only ever batches or promotes
keys whose fragment id is at least last_frag_id: keys below it are
skipped, so every populateChunkBuffers batch, the pending batch and the
to-be-cached accumulator stay at or above last_frag_id. -/
theorem refreshLoop_append_frag_ge (last : Int) (metaKeys : List ChunkKey)
    (populate : List ChunkKey → Option String) (elapsed : Nat → Int)
    (keys : List ChunkKey) :
    ∀ st : RefreshLoopState,
      (∀ b ∈ st.populateCalls, ∀ k ∈ b, last ≤ k.getD CHUNK_KEY_FRAGMENT_IDX 0) →
      (∀ k ∈ st.chunk_keys_in_fragment, last ≤ k.getD CHUNK_KEY_FRAGMENT_IDX 0) →
      (∀ k ∈ st.chunk_keys_to_be_cached, last ≤ k.getD CHUNK_KEY_FRAGMENT_IDX 0) →
      (∀ b ∈ (refreshLoop true last metaKeys populate elapsed keys st).populateCalls,
        ∀ k ∈ b, last ≤ k.getD CHUNK_KEY_FRAGMENT_IDX 0) ∧
      (∀ k ∈ (refreshLoop true last metaKeys populate elapsed keys
          st).chunk_keys_in_fragment, last ≤ k.getD CHUNK_KEY_FRAGMENT_IDX 0) ∧
      (∀ k ∈ (refreshLoop true last metaKeys populate elapsed keys
          st).chunk_keys_to_be_cached, last ≤ k.getD CHUNK_KEY_FRAGMENT_IDX 0) := by
  induction keys with
  | nil =>
    intro st h1 h2 h3
    exact ⟨h1, h2, h3⟩
  | cons ck rest ih =>
    intro st h1 h2 h3
    simp only [refreshLoop]
    split
    · exact ih st h1 h2 h3
    · rename_i hskip
      have hge : last ≤ ck.getD CHUNK_KEY_FRAGMENT_IDX 0 := by
        simp only [Bool.true_and, decide_eq_true_eq] at hskip
        omega
      split
      · split
        · split
          · -- fragment boundary with an empty pending batch
            split
            · exact ⟨h1, h2, h3⟩
            · obtain ⟨hc, hb, hcc⟩ := addKeyStep_frag_ge last ck
                { st with total_time := st.total_time + elapsed st.tick,
                          tick := st.tick + 1,
                          fragment_id := ck.getD CHUNK_KEY_FRAGMENT_IDX 0 }
                hge h2 h3
              split
              · refine ⟨?_, hb, hcc⟩
                intro b hbmem
                rw [hc] at hbmem
                exact h1 b hbmem
              · refine ih _ ?_ hb hcc
                intro b hbmem
                rw [hc] at hbmem
                exact h1 b hbmem
          · -- fragment boundary flushing the pending batch
            have h1' : ∀ b ∈ st.populateCalls ++ [st.chunk_keys_in_fragment],
                ∀ k ∈ b, last ≤ k.getD CHUNK_KEY_FRAGMENT_IDX 0 := by
              intro b hbmem
              simp only [List.mem_append, List.mem_cons, List.not_mem_nil,
                or_false] at hbmem
              rcases hbmem with hbmem | hbmem
              · exact h1 b hbmem
              · subst hbmem; exact h2
            have hempty : ∀ k ∈ ([] : List ChunkKey),
                last ≤ k.getD CHUNK_KEY_FRAGMENT_IDX 0 := by
              intro k hk
              exact absurd hk (List.not_mem_nil k)
            split
            · exact ⟨h1', hempty, h3⟩
            · split
              · exact ⟨h1', hempty, h3⟩
              · obtain ⟨hc, hb, hcc⟩ := addKeyStep_frag_ge last ck
                  { st with
                    populateCalls := st.populateCalls ++ [st.chunk_keys_in_fragment],
                    chunk_keys_in_fragment := [],
                    total_time := st.total_time + elapsed st.tick,
                    tick := st.tick + 1,
                    fragment_id := ck.getD CHUNK_KEY_FRAGMENT_IDX 0 }
                  hge hempty h3
                split
                · refine ⟨?_, hb, hcc⟩
                  intro b hbmem
                  rw [hc] at hbmem
                  exact h1' b hbmem
                · refine ih _ ?_ hb hcc
                  intro b hbmem
                  rw [hc] at hbmem
                  exact h1' b hbmem
        · -- same fragment: extend the pending batch
          obtain ⟨hc, hb, hcc⟩ := addKeyStep_frag_ge last ck st hge h2 h3
          split
          · refine ⟨?_, hb, hcc⟩
            intro b hbmem
            rw [hc] at hbmem
            exact h1 b hbmem
          · refine ih _ ?_ hb hcc
            intro b hbmem
            rw [hc] at hbmem
            exact h1 b hbmem
      · exact ih st h1 h2 h3

/-- Structural facts about an append-mode refreshTableInCache run on an
enabled cache with a successful metadata scan: the computed last_frag_id
is the seeded fold of fragment ids over the cached metadata of the table,
clearForTablePrefix is not invoked, the metadata vector passed to
cacheMetadataVec is the scan output filtered to fragments at or above
last_frag_id, both cache stores only ever grow, and every
populateChunkBuffers batch stays at or above last_frag_id. -/
theorem refreshTableInCache_append_shape
    (cache : CacheState) (metadata_vec : List ChunkKey)
    (populate : List ChunkKey → Option String)
    (cacheMetadataVecErr : Option String) (elapsed : Nat → Int)
    (table_key : ChunkKey) :
    (refreshTableInCache true true cache (.ok metadata_vec) populate
      cacheMetadataVecErr elapsed table_key).last_frag_id =
      (if cache.metadataKeys.any (fun k => underTableKey table_key k) then
        (cache.metadataKeys.filter (fun k => underTableKey table_key k)).foldl
          (fun acc k => max acc (k.getD CHUNK_KEY_FRAGMENT_IDX 0)) 0
      else 0) ∧
    (refreshTableInCache true true cache (.ok metadata_vec) populate
      cacheMetadataVecErr elapsed table_key).clearedTable = false ∧
    (refreshTableInCache true true cache (.ok metadata_vec) populate
      cacheMetadataVecErr elapsed table_key).cachedMetadataArg =
      some (metadata_vec.filter (fun k =>
        decide ((if cache.metadataKeys.any (fun k => underTableKey table_key k) then
            (cache.metadataKeys.filter (fun k => underTableKey table_key k)).foldl
              (fun acc k => max acc (k.getD CHUNK_KEY_FRAGMENT_IDX 0)) 0
          else 0) ≤ k.getD CHUNK_KEY_FRAGMENT_IDX 0))) ∧
    (∃ ext, (refreshTableInCache true true cache (.ok metadata_vec) populate
      cacheMetadataVecErr elapsed table_key).cache.metadataKeys =
        cache.metadataKeys ++ ext) ∧
    (∃ ext, (refreshTableInCache true true cache (.ok metadata_vec) populate
      cacheMetadataVecErr elapsed table_key).cache.chunkKeys =
        cache.chunkKeys ++ ext) ∧
    (∀ b ∈ (refreshTableInCache true true cache (.ok metadata_vec) populate
        cacheMetadataVecErr elapsed table_key).populateCalls, ∀ k ∈ b,
      (if cache.metadataKeys.any (fun k => underTableKey table_key k) then
        (cache.metadataKeys.filter (fun k => underTableKey table_key k)).foldl
          (fun acc k => max acc (k.getD CHUNK_KEY_FRAGMENT_IDX 0)) 0
      else 0) ≤ k.getD CHUNK_KEY_FRAGMENT_IDX 0) := by
  cases hcm : cacheMetadataVecErr with
  | some e =>
    refine ⟨?_, ?_, ?_, ⟨[], ?_⟩, ⟨[], ?_⟩, ?_⟩ <;>
      simp [refreshTableInCache, hcm]
  | none =>
    by_cases hold : cache.chunkKeys.filter (underTableKey table_key) = []
    · simp only [refreshTableInCache, hcm]
      rw [if_pos hold]
      refine ⟨rfl, rfl, rfl, ⟨_, rfl⟩, ⟨[], (List.append_nil _).symm⟩, ?_⟩
      intro b hb
      exact absurd hb (List.not_mem_nil b)
    · simp only [refreshTableInCache, hcm]
      rw [if_neg hold]
      refine ⟨?_, ?_, ?_, ?_, ?_, ?_⟩
      · exact refreshFinish_last_frag _ _ _ _ _ _
      · exact refreshFinish_clearedTable _ _ _ _ _ _
      · exact refreshFinish_cachedMetadataArg _ _ _ _ _ _
      · exact ⟨_, refreshFinish_cache_metadataKeys _ _ _ _ _ _⟩
      · rcases refreshFinish_chunkKeys_or populate _ _ true _ _ with ⟨h, _⟩ | ⟨h, _⟩
        · exact ⟨[], h.trans (List.append_nil _).symm⟩
        · exact ⟨_, h⟩
      · intro b hb
        rcases refreshFinish_calls_sub _ _ _ _ _ _ b hb with hb' | hb'
        · refine (refreshLoop_append_frag_ge _ _ populate elapsed _ _ ?_ ?_ ?_).1 b hb'
          · exact fun b hb => absurd hb (List.not_mem_nil b)
          · exact fun k hk => absurd hk (List.not_mem_nil k)
          · exact fun k hk => absurd hk (List.not_mem_nil k)
        · subst hb'
          refine (refreshLoop_append_frag_ge _ _ populate elapsed _ _ ?_ ?_ ?_).2.1
          · exact fun b hb => absurd hb (List.not_mem_nil b)
          · exact fun k hk => absurd hk (List.not_mem_nil k)
          · exact fun k hk => absurd hk (List.not_mem_nil k)

/-- C4.  During an append-mode refreshTableInCache, last_frag_id is the
maximum fragment id appearing in the currently cached metadata of the
table (0 when none is cached), the cache is not cleared (both stores only
grow), only the new metadata entries with fragment id at least
last_frag_id are re-cached, and every previously cached chunk whose
fragment id is strictly below last_frag_id stays cached and appears in no
re-population batch.  Cached fragment ids are non-negative, as the seeded
max fold of the source requires. -/
theorem refreshTableInCache_append_preserves
    (cache : CacheState) (metadata_vec : List ChunkKey)
    (populate : List ChunkKey → Option String)
    (cacheMetadataVecErr : Option String) (elapsed : Nat → Int)
    (table_key : ChunkKey)
    (hfragpos : ∀ k ∈ cache.metadataKeys, underTableKey table_key k = true →
      0 ≤ k.getD CHUNK_KEY_FRAGMENT_IDX 0) :
    (cache.metadataKeys.filter (fun k => underTableKey table_key k) = [] →
      (refreshTableInCache true true cache (.ok metadata_vec) populate
        cacheMetadataVecErr elapsed table_key).last_frag_id = 0) ∧
    (∀ k ∈ cache.metadataKeys, underTableKey table_key k = true →
      k.getD CHUNK_KEY_FRAGMENT_IDX 0 ≤
        (refreshTableInCache true true cache (.ok metadata_vec) populate
          cacheMetadataVecErr elapsed table_key).last_frag_id) ∧
    (cache.metadataKeys.filter (fun k => underTableKey table_key k) ≠ [] →
      ∃ k, k ∈ cache.metadataKeys ∧ underTableKey table_key k = true ∧
        (refreshTableInCache true true cache (.ok metadata_vec) populate
          cacheMetadataVecErr elapsed table_key).last_frag_id =
          k.getD CHUNK_KEY_FRAGMENT_IDX 0) ∧
    (refreshTableInCache true true cache (.ok metadata_vec) populate
      cacheMetadataVecErr elapsed table_key).clearedTable = false ∧
    (∀ k ∈ cache.metadataKeys,
      k ∈ (refreshTableInCache true true cache (.ok metadata_vec) populate
        cacheMetadataVecErr elapsed table_key).cache.metadataKeys) ∧
    (∀ k ∈ cache.chunkKeys,
      k ∈ (refreshTableInCache true true cache (.ok metadata_vec) populate
        cacheMetadataVecErr elapsed table_key).cache.chunkKeys) ∧
    ((refreshTableInCache true true cache (.ok metadata_vec) populate
        cacheMetadataVecErr elapsed table_key).cachedMetadataArg =
      some (metadata_vec.filter (fun k =>
        decide ((refreshTableInCache true true cache (.ok metadata_vec) populate
            cacheMetadataVecErr elapsed table_key).last_frag_id ≤
          k.getD CHUNK_KEY_FRAGMENT_IDX 0)))) ∧
    (∀ k ∈ cache.chunkKeys,
      k.getD CHUNK_KEY_FRAGMENT_IDX 0 <
        (refreshTableInCache true true cache (.ok metadata_vec) populate
          cacheMetadataVecErr elapsed table_key).last_frag_id →
      k ∈ (refreshTableInCache true true cache (.ok metadata_vec) populate
        cacheMetadataVecErr elapsed table_key).cache.chunkKeys ∧
      ∀ b ∈ (refreshTableInCache true true cache (.ok metadata_vec) populate
        cacheMetadataVecErr elapsed table_key).populateCalls, k ∉ b) := by
  obtain ⟨s1, s2, s3, ⟨ext1, s4⟩, ⟨ext2, s5⟩, s6⟩ :=
    refreshTableInCache_append_shape cache metadata_vec populate
      cacheMetadataVecErr elapsed table_key
  refine ⟨?_, ?_, ?_, s2, ?_, ?_, ?_, ?_⟩
  · intro hfe
    rw [s1]
    have hnotany : ¬cache.metadataKeys.any (fun k => underTableKey table_key k) = true := by
      rw [List.any_eq_true]
      rintro ⟨x, hx, hpx⟩
      exact List.filter_eq_nil_iff.mp hfe x hx hpx
    rw [if_neg hnotany]
  · intro k hk hu
    rw [s1]
    by_cases hany : cache.metadataKeys.any (fun k => underTableKey table_key k) = true
    · rw [if_pos hany]
      exact foldl_max_frag_mem_le _ 0 k (List.mem_filter.mpr ⟨hk, hu⟩)
    · exact absurd (List.any_eq_true.mpr ⟨k, hk, hu⟩) hany
  · intro hne
    obtain ⟨x, hx⟩ := List.exists_mem_of_ne_nil _ hne
    have hxm := List.mem_filter.mp hx
    have hany : cache.metadataKeys.any (fun k => underTableKey table_key k) = true :=
      List.any_eq_true.mpr ⟨x, hxm.1, hxm.2⟩
    rw [s1, if_pos hany]
    rcases foldl_max_frag_attained
        (cache.metadataKeys.filter (fun k => underTableKey table_key k)) 0 with
      h0 | ⟨k, hkmem, hkeq⟩
    · refine ⟨x, hxm.1, hxm.2, ?_⟩
      have h1 := foldl_max_frag_mem_le
        (cache.metadataKeys.filter (fun k => underTableKey table_key k)) 0 x hx
      have h2 := hfragpos x hxm.1 hxm.2
      omega
    · have hkm := List.mem_filter.mp hkmem
      exact ⟨k, hkm.1, hkm.2, hkeq⟩
  · intro k hk
    rw [s4]
    exact List.mem_append_left _ hk
  · intro k hk
    rw [s5]
    exact List.mem_append_left _ hk
  · rw [s1]
    exact s3
  · intro k hk hlt
    refine ⟨?_, ?_⟩
    · rw [s5]
      exact List.mem_append_left _ hk
    · intro b hb hkb
      have hge := s6 b hb k hkb
      rw [s1] at hlt
      omega

/-- Witness for C4 at a concrete append-mode refresh: the cache is not
cleared. -/
theorem refreshTableInCache_append_preserves_witness :
    (refreshTableInCache true true cacheFix
      (.ok [[1, 2, 3, 0], [1, 2, 3, 1]]) (fun _ => none) none (fun _ => 0)
      [1, 2]).clearedTable = false :=
  (refreshTableInCache_append_preserves cacheFix [[1, 2, 3, 0], [1, 2, 3, 1]]
    (fun _ => none) none (fun _ => 0) [1, 2] (by decide)).2.2.2.1

/-- addKeyStep only touches the batch, the to-be-cached accumulator and
possibly the CHECK flag. -/
theorem addKeyStep_preserves (chunk_key : ChunkKey) (st : RefreshLoopState) :
    (addKeyStep chunk_key st).populateCalls = st.populateCalls ∧
    (addKeyStep chunk_key st).warned = st.warned ∧
    (addKeyStep chunk_key st).total_time = st.total_time ∧
    (addKeyStep chunk_key st).tick = st.tick ∧
    (addKeyStep chunk_key st).failed = st.failed ∧
    (addKeyStep chunk_key st).fragment_id = st.fragment_id := by
  unfold addKeyStep
  repeat' split
  all_goals exact ⟨rfl, rfl, rfl, rfl, rfl, rfl⟩

/-- On a well-formed key (a five-component key is a data key) addKeyStep
does not trip the CHECK. -/
theorem addKeyStep_checkFailed_wf (chunk_key : ChunkKey) (st : RefreshLoopState)
    (hwf : isVarLenKey chunk_key = true → isVarLenDataKey chunk_key = true) :
    (addKeyStep chunk_key st).checkFailed = st.checkFailed := by
  unfold addKeyStep
  split
  · split
    · rfl
    · rename_i hv hnd
      exact absurd (hwf hv) hnd
  · rfl

/-- When every populateChunkBuffers call succeeds and every key of the
iterated list is well-formed, the re-population loop finishes with no
pending exception and no CHECK failure. -/
theorem refreshLoop_no_failure (append_mode : Bool) (last : Int)
    (metaKeys : List ChunkKey) (populate : List ChunkKey → Option String)
    (elapsed : Nat → Int) (keys : List ChunkKey)
    (hpop : ∀ b, populate b = none)
    (hwf : ∀ k ∈ keys, isVarLenKey k = true → isVarLenDataKey k = true) :
    ∀ st : RefreshLoopState, st.failed = none → st.checkFailed = false →
      (refreshLoop append_mode last metaKeys populate elapsed keys st).failed =
        none ∧
      (refreshLoop append_mode last metaKeys populate elapsed keys
        st).checkFailed = false := by
  induction keys with
  | nil =>
    intro st hf hcf
    exact ⟨hf, hcf⟩
  | cons ck rest ih =>
    have hwfck : isVarLenKey ck = true → isVarLenDataKey ck = true :=
      hwf ck (List.mem_cons_self _ _)
    have hwfrest : ∀ k ∈ rest, isVarLenKey k = true → isVarLenDataKey k = true :=
      fun k hk => hwf k (List.mem_cons_of_mem _ hk)
    intro st hf hcf
    simp only [refreshLoop]
    split
    · exact ih hwfrest st hf hcf
    · split
      · split
        · split
          · split
            · exact ⟨hf, hcf⟩
            · split
              · rename_i hcfT
                rw [addKeyStep_checkFailed_wf ck _ hwfck] at hcfT
                dsimp only at hcfT
                rw [hcf] at hcfT
                exact Bool.noConfusion hcfT
              · refine ih hwfrest _ ?_ ?_
                · rw [(addKeyStep_preserves ck _).2.2.2.2.1]
                  exact hf
                · rw [addKeyStep_checkFailed_wf ck _ hwfck]
                  exact hcf
          · split
            · rename_i e heq
              rw [hpop st.chunk_keys_in_fragment] at heq
              exact Option.noConfusion heq
            · split
              · exact ⟨hf, hcf⟩
              · split
                · rename_i hcfT
                  rw [addKeyStep_checkFailed_wf ck _ hwfck] at hcfT
                  dsimp only at hcfT
                  rw [hcf] at hcfT
                  exact Bool.noConfusion hcfT
                · refine ih hwfrest _ ?_ ?_
                  · rw [(addKeyStep_preserves ck _).2.2.2.2.1]
                    exact hf
                  · rw [addKeyStep_checkFailed_wf ck _ hwfck]
                    exact hcf
        · split
          · rename_i hcfT
            rw [addKeyStep_checkFailed_wf ck _ hwfck] at hcfT
            rw [hcf] at hcfT
            exact Bool.noConfusion hcfT
          · refine ih hwfrest _ ?_ ?_
            · rw [(addKeyStep_preserves ck _).2.2.2.2.1]
              exact hf
            · rw [addKeyStep_checkFailed_wf ck _ hwfck]
              exact hcf
      · exact ih hwfrest st hf hcf

/-- The re-population loop warns exactly when its accumulated total_time
has reached MAX_REFRESH_TIME_IN_SECONDS: the time check at each fragment
boundary stops the loop with the warning the moment the budget is
reached, and a loop that never warns keeps its accumulated time below the
budget. -/
theorem refreshLoop_warned_iff (append_mode : Bool) (last : Int)
    (metaKeys : List ChunkKey) (populate : List ChunkKey → Option String)
    (elapsed : Nat → Int) (keys : List ChunkKey) :
    ∀ st : RefreshLoopState, st.warned = false →
      st.total_time < MAX_REFRESH_TIME_IN_SECONDS →
      ((refreshLoop append_mode last metaKeys populate elapsed keys
          st).warned = true ↔
        MAX_REFRESH_TIME_IN_SECONDS ≤
          (refreshLoop append_mode last metaKeys populate elapsed keys
            st).total_time) := by
  induction keys with
  | nil =>
    intro st hw htot
    simp only [refreshLoop]
    rw [hw]
    simp only [Bool.false_eq_true, false_iff]
    omega
  | cons ck rest ih =>
    intro st hw htot
    simp only [refreshLoop]
    split
    · exact ih st hw htot
    · split
      · split
        · split
          · split
            · rename_i hbud
              simpa using hbud
            · rename_i hbud
              split
              · rw [(addKeyStep_preserves ck _).2.1, (addKeyStep_preserves ck _).2.2.1]
                dsimp only
                rw [hw]
                simp only [Bool.false_eq_true, false_iff]
                omega
              · refine ih _ ?_ ?_
                · rw [(addKeyStep_preserves ck _).2.1]
                  exact hw
                · rw [(addKeyStep_preserves ck _).2.2.1]
                  dsimp only
                  omega
          · split
            · rw [hw]
              simp only [Bool.false_eq_true, false_iff]
              omega
            · split
              · rename_i hbud
                simpa using hbud
              · rename_i hbud
                split
                · rw [(addKeyStep_preserves ck _).2.1, (addKeyStep_preserves ck _).2.2.1]
                  dsimp only
                  rw [hw]
                  simp only [Bool.false_eq_true, false_iff]
                  omega
                · refine ih _ ?_ ?_
                  · rw [(addKeyStep_preserves ck _).2.1]
                    exact hw
                  · rw [(addKeyStep_preserves ck _).2.2.1]
                    dsimp only
                    omega
        · split
          · rw [(addKeyStep_preserves ck _).2.1, (addKeyStep_preserves ck _).2.2.1]
            rw [hw]
            simp only [Bool.false_eq_true, false_iff]
            omega
          · refine ih _ ?_ ?_
            · rw [(addKeyStep_preserves ck _).2.1]
              exact hw
            · rw [(addKeyStep_preserves ck _).2.2.1]
              omega
      · exact ih st hw htot

/-- clearForTablePrefix removes every chunk of the table from the chunk
store. -/
theorem clearForTableOp_not_mem (cache : CacheState) (table_key k : ChunkKey)
    (hk : underTableKey table_key k = true) :
    k ∉ (clearForTableOp cache table_key).chunkKeys := by
  intro hmem
  simp [clearForTableOp, List.mem_filter, hk] at hmem

/-- On a fully successful run, a chunk of a table absent from the chunk
store before refreshFinish is cached afterwards exactly when it is in the
promoted set. -/
theorem refreshFinish_success_member (populate : List ChunkKey → Option String)
    (cache2 : CacheState) (last_frag_id : Int) (append_mode : Bool)
    (new_metadata_vec : List ChunkKey) (st : RefreshLoopState) (k : ChunkKey)
    (hcf : st.checkFailed = false) (hf : st.failed = none)
    (hp : populate st.chunk_keys_in_fragment = none)
    (hnot : k ∉ cache2.chunkKeys) :
    (k ∈ (refreshFinish populate cache2 last_frag_id append_mode
        new_metadata_vec st).cache.chunkKeys ↔
      k ∈ ((refreshFinish populate cache2 last_frag_id append_mode
        new_metadata_vec st).cacheTableChunksArg.getD [])) := by
  obtain ⟨he, hck, harg⟩ :=
    refreshFinish_success populate cache2 last_frag_id append_mode
      new_metadata_vec st hcf hf hp
  rw [hck, harg]
  constructor
  · intro h
    rcases List.mem_append.mp h with h | h
    · exact absurd h hnot
    · simpa using h
  · intro h
    exact List.mem_append_right _ (by simpa using h)

/-- C7.  During warm-chunk re-population in a full-mode
refreshTableInCache with wrapper calls that succeed: the wall-clock
budget MAX_REFRESH_TIME_IN_SECONDS is one hour (3600 seconds); the run
raises no error and trips no CHECK; every scanned metadata entry stays
cached; the loop logs its warning exactly when the accumulated elapsed
time measured at the fragment boundaries has reached the budget (so on
reaching it the loop stops by warning rather than erroring); and a chunk
of the table is cached at the end exactly when it belongs to the promoted
set, so the chunks of fragments the stopped loop never reached stay
uncached while their metadata remains cached. -/
theorem refreshTableInCache_refresh_budget
    (cache : CacheState) (metadata_vec : List ChunkKey)
    (populate : List ChunkKey → Option String) (elapsed : Nat → Int)
    (table_key : ChunkKey)
    (hpop : ∀ b, populate b = none)
    (hwf : ∀ k ∈ cache.chunkKeys, isVarLenKey k = true → isVarLenDataKey k = true) :
    MAX_REFRESH_TIME_IN_SECONDS = 3600 ∧
    (refreshTableInCache true false cache (.ok metadata_vec) populate none
      elapsed table_key).err = none ∧
    (refreshTableInCache true false cache (.ok metadata_vec) populate none
      elapsed table_key).checkFailed = false ∧
    (∀ k ∈ metadata_vec,
      k ∈ (refreshTableInCache true false cache (.ok metadata_vec) populate
        none elapsed table_key).cache.metadataKeys) ∧
    ((refreshTableInCache true false cache (.ok metadata_vec) populate none
        elapsed table_key).warned = true ↔
      MAX_REFRESH_TIME_IN_SECONDS ≤
        (refreshTableInCache true false cache (.ok metadata_vec) populate none
          elapsed table_key).total_time) ∧
    (∀ k, underTableKey table_key k = true →
      (k ∈ (refreshTableInCache true false cache (.ok metadata_vec) populate
          none elapsed table_key).cache.chunkKeys ↔
        k ∈ ((refreshTableInCache true false cache (.ok metadata_vec) populate
          none elapsed table_key).cacheTableChunksArg.getD []))) := by
  have hwfold : ∀ k ∈ cache.chunkKeys.filter (underTableKey table_key),
      isVarLenKey k = true → isVarLenDataKey k = true := by
    intro k hk
    exact hwf k (List.mem_filter.mp hk).1
  by_cases hold : cache.chunkKeys.filter (underTableKey table_key) = []
  · simp only [refreshTableInCache, Bool.not_true, Bool.not_false,
      Bool.false_eq_true, if_false]
    rw [if_pos hold]
    refine ⟨by decide, rfl, rfl, ?_, ?_, ?_⟩
    · intro k hk
      exact List.mem_append_right _ hk
    · dsimp only
      simp only [Bool.false_eq_true, false_iff]
      decide
    · intro k hk
      dsimp only
      constructor
      · intro hmem
        exact absurd hmem (clearForTableOp_not_mem cache table_key k hk)
      · intro hmem
        exact absurd hmem (List.not_mem_nil k)
  · simp only [refreshTableInCache, Bool.not_true, Bool.not_false,
      Bool.false_eq_true, if_false]
    rw [if_neg hold]
    refine ⟨by decide, ?_, ?_, ?_, ?_, ?_⟩
    · refine (refreshFinish_success populate _ _ _ _ _ ?_ ?_ (hpop _)).1
      · exact (refreshLoop_no_failure _ _ _ populate elapsed _ hpop hwfold _
          rfl rfl).2
      · exact (refreshLoop_no_failure _ _ _ populate elapsed _ hpop hwfold _
          rfl rfl).1
    · rw [refreshFinish_checkFailed]
      exact (refreshLoop_no_failure _ _ _ populate elapsed _ hpop hwfold _
        rfl rfl).2
    · intro k hk
      rw [refreshFinish_cache_metadataKeys]
      exact List.mem_append_right _ hk
    · rw [refreshFinish_warned, refreshFinish_total_time]
      refine refreshLoop_warned_iff _ _ _ populate elapsed _ _ rfl ?_
      show (0 : Int) < MAX_REFRESH_TIME_IN_SECONDS
      decide
    · intro k hk
      refine refreshFinish_success_member populate _ _ _ _ _ k ?_ ?_ (hpop _) ?_
      · exact (refreshLoop_no_failure _ _ _ populate elapsed _ hpop hwfold _
          rfl rfl).2
      · exact (refreshLoop_no_failure _ _ _ populate elapsed _ hpop hwfold _
          rfl rfl).1
      · exact clearForTableOp_not_mem cache table_key k hk

/-- Witness for C7 at a concrete full-mode refresh with one cached chunk
and instantaneous fragment population: no error escapes. -/
theorem refreshTableInCache_refresh_budget_witness :
    (refreshTableInCache true false cacheFix (.ok [[1, 2, 3, 0]])
      (fun _ => none) none (fun _ => 0) [1, 2]).err = none :=
  (refreshTableInCache_refresh_budget cacheFix [[1, 2, 3, 0]] (fun _ => none)
    (fun _ => 0) [1, 2] (fun _ => rfl) (by decide)).2.1

/-- C6.  recoverDataWrapperFromDisk returns false immediately when the
cache is disabled; otherwise it returns true exactly when metadata was
obtained (from the cached-metadata probe, falling back to
recoverCacheForTable) and the table's wrapper_metadata.json exists, in
which case the wrapper's restore is invoked with the metadata obtained
from whichever source supplied it; in every other case it returns false
and restore is not invoked. -/
theorem recoverDataWrapperFromDisk_spec
    (is_cache_enabled hasCachedMetadataForKeyPfx : Bool)
    (cachedMetadataVec : List ChunkKey)
    (recoverCacheForTable : Option (List ChunkKey))
    (wrapperFileExists : Bool) :
    (is_cache_enabled = false →
      recoverDataWrapperFromDisk is_cache_enabled hasCachedMetadataForKeyPfx
        cachedMetadataVec recoverCacheForTable wrapperFileExists =
        ⟨false, none⟩) ∧
    ((recoverDataWrapperFromDisk is_cache_enabled hasCachedMetadataForKeyPfx
        cachedMetadataVec recoverCacheForTable wrapperFileExists).result =
        true ↔
      (is_cache_enabled = true ∧ wrapperFileExists = true ∧
        (hasCachedMetadataForKeyPfx = true ∨ recoverCacheForTable.isSome))) ∧
    ((recoverDataWrapperFromDisk is_cache_enabled hasCachedMetadataForKeyPfx
        cachedMetadataVec recoverCacheForTable wrapperFileExists).result =
        true →
      (recoverDataWrapperFromDisk is_cache_enabled hasCachedMetadataForKeyPfx
        cachedMetadataVec recoverCacheForTable wrapperFileExists).restoreCalledWith =
        some (if hasCachedMetadataForKeyPfx then cachedMetadataVec
          else recoverCacheForTable.getD [])) ∧
    ((recoverDataWrapperFromDisk is_cache_enabled hasCachedMetadataForKeyPfx
        cachedMetadataVec recoverCacheForTable wrapperFileExists).result =
        false →
      (recoverDataWrapperFromDisk is_cache_enabled hasCachedMetadataForKeyPfx
        cachedMetadataVec recoverCacheForTable wrapperFileExists).restoreCalledWith =
        none) := by
  cases is_cache_enabled <;> cases hasCachedMetadataForKeyPfx <;>
    cases wrapperFileExists <;> cases recoverCacheForTable <;>
    simp [recoverDataWrapperFromDisk]

/-- Witness for C6 at a concrete state: cache enabled, cached metadata
present, wrapper state file on disk, so recovery succeeds. -/
theorem recoverDataWrapperFromDisk_spec_witness :
    (recoverDataWrapperFromDisk true true [[1, 2, 3, 0]] none true).result =
      true :=
  (recoverDataWrapperFromDisk_spec true true [[1, 2, 3, 0]] none
    true).2.1.mpr ⟨rfl, rfl, Or.inl rfl⟩

/-- C8.  createDataWrapperIfNotExists returns false and leaves the
wrapper map unchanged when a wrapper already exists for the chunk key's
table; when none exists it inserts exactly one CSV or Parquet wrapper
according to the descriptor kind and returns true; any other kind throws
"Unsupported data wrapper" with the map unchanged. -/
theorem createDataWrapperIfNotExists_spec
    (m : List (ChunkKey × DataWrapper)) (chunk_key : ChunkKey)
    (kind : DataWrapperKind) :
    (∀ w, lookupWrapper m [chunk_key.getD CHUNK_KEY_DB_IDX 0,
        chunk_key.getD CHUNK_KEY_TABLE_IDX 0] = some w →
      createDataWrapperIfNotExists m chunk_key kind =
        ⟨some false, none, m⟩) ∧
    (lookupWrapper m [chunk_key.getD CHUNK_KEY_DB_IDX 0,
        chunk_key.getD CHUNK_KEY_TABLE_IDX 0] = none → kind = .CSV →
      createDataWrapperIfNotExists m chunk_key kind =
        ⟨some true, none,
          m ++ [([chunk_key.getD CHUNK_KEY_DB_IDX 0,
            chunk_key.getD CHUNK_KEY_TABLE_IDX 0],
            .csv (chunk_key.getD CHUNK_KEY_DB_IDX 0)
              (chunk_key.getD CHUNK_KEY_TABLE_IDX 0))]⟩) ∧
    (lookupWrapper m [chunk_key.getD CHUNK_KEY_DB_IDX 0,
        chunk_key.getD CHUNK_KEY_TABLE_IDX 0] = none → kind = .PARQUET →
      createDataWrapperIfNotExists m chunk_key kind =
        ⟨some true, none,
          m ++ [([chunk_key.getD CHUNK_KEY_DB_IDX 0,
            chunk_key.getD CHUNK_KEY_TABLE_IDX 0],
            .parquet (chunk_key.getD CHUNK_KEY_DB_IDX 0)
              (chunk_key.getD CHUNK_KEY_TABLE_IDX 0))]⟩) ∧
    (∀ s, lookupWrapper m [chunk_key.getD CHUNK_KEY_DB_IDX 0,
        chunk_key.getD CHUNK_KEY_TABLE_IDX 0] = none → kind = .other s →
      createDataWrapperIfNotExists m chunk_key kind =
        ⟨none, some "Unsupported data wrapper", m⟩) := by
  refine ⟨?_, ?_, ?_, ?_⟩
  · intro w hw
    simp only [createDataWrapperIfNotExists]
    rw [hw]
  · intro hw hk
    subst hk
    simp only [createDataWrapperIfNotExists]
    rw [hw]
  · intro hw hk
    subst hk
    simp only [createDataWrapperIfNotExists]
    rw [hw]
  · intro s hw hk
    subst hk
    simp only [createDataWrapperIfNotExists]
    rw [hw]

/-- Witness for C8 at a concrete state: inserting a CSV wrapper for table
(7, 9) into an empty map. -/
theorem createDataWrapperIfNotExists_spec_witness :
    createDataWrapperIfNotExists [] [7, 9, 1, 0] .CSV =
      ⟨some true, none, [([7, 9], .csv 7 9)]⟩ :=
  (createDataWrapperIfNotExists_spec [] [7, 9, 1, 0] .CSV).2.1 rfl rfl

/-- C10.  isDatawrapperRestored returns false rather than failing when no
wrapper is registered for the chunk key's table, and otherwise returns
the registered wrapper's isRestored value. -/
theorem isDatawrapperRestored_spec
    (m : List (ChunkKey × DataWrapper)) (restored : DataWrapper → Bool)
    (chunk_key : ChunkKey) :
    (lookupWrapper m [chunk_key.getD CHUNK_KEY_DB_IDX 0,
        chunk_key.getD CHUNK_KEY_TABLE_IDX 0] = none →
      isDatawrapperRestored m restored chunk_key = false) ∧
    (∀ w, lookupWrapper m [chunk_key.getD CHUNK_KEY_DB_IDX 0,
        chunk_key.getD CHUNK_KEY_TABLE_IDX 0] = some w →
      isDatawrapperRestored m restored chunk_key = restored w) := by
  constructor
  · intro h
    simp only [isDatawrapperRestored]
    rw [h]
  · intro w h
    simp only [isDatawrapperRestored]
    rw [h]

/-- Witness for C10: with an empty wrapper map the probe returns false. -/
theorem isDatawrapperRestored_spec_witness :
    isDatawrapperRestored [] (fun _ => true) [3, 4, 5, 0] = false :=
  (isDatawrapperRestored_spec [] (fun _ => true) [3, 4, 5, 0]).1 rfl

/-- C9 counterexample.  An entry whose column id is INT_MAX survives
clearTempChunkBufferMapEntriesForTable for its own table: the range erase
ends at upper_bound([db, table, INT_MAX]), and [0, 0, INT_MAX, 1] sorts
strictly after that bound, so the entry is kept even though its chunk key
has the table prefix [0, 0]. -/
theorem clearTempChunkBufferMap_intmax_counterexample :
    clearTempChunkBufferMapEntriesForTable [([0, 0, 2147483647, 1], 7)]
      [0, 0] = [([0, 0, 2147483647, 1], 7)] ∧
    underTableKey [0, 0] [0, 0, 2147483647, 1] = true := by
  constructor <;> rfl

/-- A chunk key with the table prefix [db, tbl] is db followed by tbl
followed by a tail. -/
theorem underTableKey_shape (db tbl : Int) (k : ChunkKey)
    (h : underTableKey [db, tbl] k = true) :
    ∃ rest, k = db :: tbl :: rest := by
  match k with
  | [] => simp [underTableKey] at h
  | [a] => simp [underTableKey] at h
  | a :: b :: rest =>
    simp [underTableKey] at h
    exact ⟨rest, by rw [h.1, h.2]⟩

/-- A key without the table prefix lies outside the closed lexicographic
interval erased by clearTempChunkBufferMapEntriesForTable. -/
theorem nonPrefix_kept (db tbl : Int) (k : ChunkKey)
    (h : underTableKey [db, tbl] k = false) :
    (keyLt k [db, tbl] || keyLt [db, tbl, intMaxSentinel] k) = true := by
  match k with
  | [] => simp [keyLt]
  | [a] =>
    by_cases h1 : a < db
    · simp [keyLt, h1]
    · by_cases h2 : a = db
      · subst h2
        simp [keyLt]
      · have h3 : db < a := by omega
        simp [keyLt, h3]
  | a :: b :: rest =>
    have h' : ¬(a = db ∧ b = tbl) := by
      rintro ⟨ha, hb⟩
      subst ha; subst hb
      simp [underTableKey] at h
    by_cases h1 : a < db
    · simp [keyLt, h1]
    · by_cases h2 : a = db
      · subst h2
        have hbt : b ≠ tbl := fun hb => h' ⟨rfl, hb⟩
        by_cases h3 : b < tbl
        · simp [keyLt, h3]
        · have h4 : tbl < b := by omega
          simp [keyLt, h3, h4]
      · have h3 : db < a := by omega
        simp [keyLt, h3]

/-- Filtering twice collapses to the outer filter when the outer
predicate implies the inner one on the list. -/
theorem filter_filter_of_imp {α : Type} (m : List α) (p q : α → Bool)
    (h : ∀ e ∈ m, q e = true → p e = true) :
    (m.filter p).filter q = m.filter q := by
  induction m with
  | nil => rfl
  | cons a t ih =>
    have ht : ∀ e ∈ t, q e = true → p e = true :=
      fun e he => h e (List.mem_cons_of_mem _ he)
    by_cases hq : q a = true
    · have hp := h a (List.mem_cons_self _ _) hq
      simp [List.filter_cons, hp, hq, ih ht]
    · by_cases hp : p a = true
      · simp [List.filter_cons, hp, hq, ih ht]
      · simp [List.filter_cons, hp, hq, ih ht]

/-- A key with the table prefix survives the erased interval exactly when
its tail starts with INT_MAX and extends beyond it (given C++
int-representable components). -/
theorem prefix_kept_iff (db tbl : Int) (rest : List Int)
    (hb : ∀ x ∈ rest, x ≤ intMaxSentinel) :
    ((keyLt (db :: tbl :: rest) [db, tbl] ||
      keyLt [db, tbl, intMaxSentinel] (db :: tbl :: rest)) = true) ↔
    (rest.getD 0 0 = intMaxSentinel ∧ 2 ≤ rest.length) := by
  have h1 : keyLt (db :: tbl :: rest) [db, tbl] = false := by
    simp [keyLt]
  have h2 : keyLt [db, tbl, intMaxSentinel] (db :: tbl :: rest) =
      keyLt [intMaxSentinel] rest := by
    simp [keyLt]
  rw [h1, h2, Bool.false_or]
  cases rest with
  | nil => simp [keyLt]
  | cons r rs =>
    have hr : r ≤ intMaxSentinel := hb r (List.mem_cons_self _ _)
    have hnotlt : ¬(intMaxSentinel < r) := by omega
    cases rs with
    | nil => simp [keyLt, hnotlt]
    | cons r2 rs2 =>
      simp [keyLt, hnotlt]
      exact eq_comm

/-- C9 (amended).  After clearTempChunkBufferMapEntriesForTable(table_key)
the staging map contains no entry whose chunk key has the table prefix,
except entries whose column id equals INT_MAX and whose key extends past
the column id (at least four components) — those sort strictly after the
upper bound of the erased range and survive; every entry with a different
table prefix is unchanged, and every such surviving entry is indeed
retained.  Components are assumed representable as C++ int. -/
theorem clearTempChunkBufferMap_clears_table_entries
    (m : List (ChunkKey × Nat)) (db tbl : Int)
    (hbound : ∀ e ∈ m, ∀ x ∈ e.1, x ≤ intMaxSentinel) :
    (∀ e ∈ clearTempChunkBufferMapEntriesForTable m [db, tbl],
      underTableKey [db, tbl] e.1 = true →
      e.1.getD CHUNK_KEY_COLUMN_IDX 0 = intMaxSentinel ∧ 4 ≤ e.1.length) ∧
    ((clearTempChunkBufferMapEntriesForTable m [db, tbl]).filter
        (fun e => !underTableKey [db, tbl] e.1) =
      m.filter (fun e => !underTableKey [db, tbl] e.1)) ∧
    (∀ e ∈ m, (underTableKey [db, tbl] e.1 = false ∨
        (e.1.getD CHUNK_KEY_COLUMN_IDX 0 = intMaxSentinel ∧ 4 ≤ e.1.length)) →
      e ∈ clearTempChunkBufferMapEntriesForTable m [db, tbl]) := by
  refine ⟨?_, ?_, ?_⟩
  · intro e he hu
    simp only [clearTempChunkBufferMapEntriesForTable] at he
    have he' := List.mem_filter.mp he
    obtain ⟨rest, hrest⟩ := underTableKey_shape db tbl e.1 hu
    have hbrest : ∀ x ∈ rest, x ≤ intMaxSentinel := by
      intro x hx
      refine hbound e he'.1 x ?_
      rw [hrest]
      exact List.mem_cons_of_mem _ (List.mem_cons_of_mem _ hx)
    have hpred := he'.2
    rw [hrest] at hpred
    have hchar := (prefix_kept_iff db tbl rest hbrest).mp hpred
    constructor
    · rw [hrest]
      exact hchar.1
    · rw [hrest]
      simp only [List.length_cons]
      omega
  · simp only [clearTempChunkBufferMapEntriesForTable]
    refine filter_filter_of_imp m _ _ ?_
    intro e _ hq
    rw [Bool.not_eq_true'] at hq
    exact nonPrefix_kept db tbl e.1 hq
  · intro e he hcond
    simp only [clearTempChunkBufferMapEntriesForTable]
    refine List.mem_filter.mpr ⟨he, ?_⟩
    rcases hcond with hcond | ⟨hcol, hlen⟩
    · exact nonPrefix_kept db tbl e.1 hcond
    · by_cases hu : underTableKey [db, tbl] e.1 = true
      · obtain ⟨rest, hrest⟩ := underTableKey_shape db tbl e.1 hu
        rw [hrest]
        refine (prefix_kept_iff db tbl rest ?_).mpr ?_
        · intro x hx
          refine hbound e he x ?_
          rw [hrest]
          exact List.mem_cons_of_mem _ (List.mem_cons_of_mem _ hx)
        · constructor
          · rw [hrest] at hcol
            exact hcol
          · rw [hrest] at hlen
            simp only [List.length_cons] at hlen
            omega
      · rw [Bool.not_eq_true] at hu
        exact nonPrefix_kept db tbl e.1 hu

/-- Witness for C9 (amended) at a concrete staging map holding one entry
of table (1,2) and one of table (9,9): entries of other tables are
unchanged by the clear. -/
theorem clearTempChunkBufferMap_clears_table_entries_witness :
    (clearTempChunkBufferMapEntriesForTable
        [([1, 2, 3, 0], 5), ([9, 9, 1, 0], 6)] [1, 2]).filter
        (fun e => !underTableKey [1, 2] e.1) =
      [([1, 2, 3, 0], 5), ([9, 9, 1, 0], 6)].filter
        (fun e => !underTableKey [1, 2] e.1) :=
  (clearTempChunkBufferMap_clears_table_entries
    [([1, 2, 3, 0], 5), ([9, 9, 1, 0], 6)] 1 2 (by decide)).2.1
